import Mathlib

/-!
# Financial-Data-Parser: verification of the Type Classification + Format
  Normalization engine

Shallow embedding of `src/core/format_parser.py` (class `FormatParser`) and
`src/core/type_detector.py` (class `DataTypeDetector`).

Modelling conventions:
* Python strings are `List Char` internally (entry points take `String` and
  convert); `None` inputs are `Option`.
* Python `float` values are modelled as `ℚ`: every amount manipulated by the
  source is produced by parsing a decimal literal and multiplying / negating,
  which is exact in `ℚ`.  The builtin `float(str)` parser is modelled by
  `pyFloat?` on its finite-decimal fragment (optional sign, digits with
  underscores between digits, decimal point, exponent); the special forms
  `inf`/`nan` are outside the modelled fragment.
* Python regular expressions used by the source are compiled by hand into
  explicit matching functions (the source only uses `\d`, `\w`, `\s`,
  character classes, counted repetition, and literal characters, with
  `re.match` = anchored-at-start and `re.search` = anywhere semantics).
  `\d`/`\w`/`\s` are modelled on their ASCII fragments.
* Error dictionaries carry a fixed error string: the source interpolates the
  offending text / exception message into the error value; the model keeps the
  fixed prefix only, which preserves the error kind.
-/

/-! ## Character classes and basic string utilities -/

/-- ASCII decimal digits: model of `\d` and of the digit class accepted by
`float()` / `int()`. -/
def isDigitChar (c : Char) : Bool :=
  c ∈ ['0', '1', '2', '3', '4', '5', '6', '7', '8', '9']

/-- ASCII whitespace: model of `\s` and of the whitespace stripped by
`str.strip()` / `float()`. -/
def isWsChar (c : Char) : Bool :=
  c ∈ [' ', '\t', '\n', '\x0d', '\x0b', '\x0c']

/-- Model of `\w` (ASCII fragment): letters, digits, underscore. -/
def isWordChar (c : Char) : Bool :=
  c.isAlpha || isDigitChar c || c = '_'

/-- `str.strip()`: remove leading and trailing whitespace. -/
def trimWs (cs : List Char) : List Char :=
  ((cs.dropWhile isWsChar).reverse.dropWhile isWsChar).reverse

/-- Numeric value of a list of decimal digit characters (most significant
first), as read left to right. -/
def natOfDigits (cs : List Char) : Nat :=
  cs.foldl (fun n c => 10 * n + (c.toNat - 48)) 0

/-- The `dropWhile` of a list is a suffix, hence no longer. -/
theorem dropWhile_length_le (p : Char → Bool) (l : List Char) :
    (l.dropWhile p).length ≤ l.length :=
  (List.dropWhile_suffix p).length_le

/-- `str.split()` worker, structurally recursive on a fuel argument so that
the definition reduces in the kernel.  Every step consumes at least one
character, so a fuel equal to the length of the list (as supplied by
`wordsSplit`) never runs out. -/
def wordsSplitF : Nat → List Char → List (List Char)
  | _, [] => []
  | 0, _ => []
  | fuel + 1, c :: cs =>
    if isWsChar c then wordsSplitF fuel cs
    else (c :: cs.takeWhile (fun x => !isWsChar x)) ::
      wordsSplitF fuel (cs.dropWhile (fun x => !isWsChar x))

/-- `str.split()`: split on runs of whitespace, dropping empty pieces. -/
def wordsSplit (cs : List Char) : List (List Char) :=
  wordsSplitF cs.length cs

/-- Substring test: `needle in haystack` for Python strings (`leadsWith` is
the prefix test it iterates). -/
def leadsWith : List Char → List Char → Bool
  | [], _ => true
  | _ :: _, [] => false
  | a :: as, b :: bs => a = b && leadsWith as bs

def containsSub (needle : List Char) : List Char → Bool
  | [] => needle = []
  | c :: cs => leadsWith needle (c :: cs) || containsSub needle cs

/-! ## Model of Python `float()` and `int()` string parsing

`float()` accepts optional surrounding whitespace, an optional sign, and a
mantissa `digits[.digits]` or `.digits` followed by an optional exponent
`(e|E)[sign]digits`, where every digit group may contain single underscores
between digits (PEP 515).  The `inf`/`nan` forms are outside the modelled
fragment.  The result is the exact rational value of the literal. -/

/-- Digit or underscore. -/
def isDU (c : Char) : Bool := isDigitChar c || c = '_'

/-- No two consecutive underscores. -/
def noDoubleUS : List Char → Bool
  | [] => true
  | [_] => true
  | a :: b :: rest => !(a = '_' && b = '_') && noDoubleUS (b :: rest)

/-- The first character exists and is not an underscore. -/
def headNotUS : List Char → Bool
  | [] => false
  | c :: _ => !(c = '_')

/-- A valid digit group for `float()`/`int()` (PEP 515): nonempty, only
digits and underscores, no leading/trailing underscore, no two consecutive
underscores — equivalently the grammar `digit+ ('_' digit+)*`. -/
def validRun (l : List Char) : Bool :=
  !l.isEmpty && l.all isDU && headNotUS l && headNotUS l.reverse &&
    noDoubleUS l

/-- Numeric value of a digit group, ignoring the underscores. -/
def digitsValN (cs : List Char) : Nat :=
  natOfDigits (cs.filter (fun c => c ≠ '_'))

/-- Number of actual digits in a digit group (underscores removed). -/
def digitsLen (cs : List Char) : Nat :=
  (cs.filter (fun c => c ≠ '_')).length

/-- Powers of ten over `Int`, by structural recursion (kernel-reducible). -/
def pow10 : Nat → Int
  | 0 => 1
  | k + 1 => 10 * pow10 k

/-- Exact decimal numbers `m × 10^e`: the value representation for Python
floats in this model.  Every float the source manipulates is obtained by
parsing a decimal literal and negating / taking absolute values / multiplying
by a power of ten, all of which are exact in this form (the rational value of
a `Dec` is given by `Dec.toRat`, used in theorem statements). -/
structure Dec where
  m : Int
  e : Int
deriving DecidableEq, Repr

/-- Rational value of a decimal number. -/
def Dec.toRat (d : Dec) : ℚ :=
  if 0 ≤ d.e then (d.m : ℚ) * 10 ^ d.e.toNat else (d.m : ℚ) / 10 ^ (-d.e).toNat

def Dec.ofInt (n : Int) : Dec := ⟨n, 0⟩

def Dec.neg (d : Dec) : Dec := ⟨-d.m, d.e⟩

/-- Python `abs` on a decimal value. -/
def Dec.abs (d : Dec) : Dec := ⟨|d.m|, d.e⟩

/-- Sign test `value < 0`. -/
def Dec.isNeg (d : Dec) : Bool := d.m < 0

/-- Multiplication by `10^k` (covers the K/M/B/T multipliers and the float
exponent). -/
def Dec.shift10 (d : Dec) (k : Int) : Dec := ⟨d.m, d.e + k⟩

/-- Bring two decimal numbers to a common exponent for exact comparison. -/
def Dec.align (a b : Dec) : Int × Int :=
  (a.m * pow10 (a.e - min a.e b.e).toNat, b.m * pow10 (b.e - min a.e b.e).toNat)

/-- Exact `≤` on values. -/
def Dec.le (a b : Dec) : Bool := decide ((Dec.align a b).1 ≤ (Dec.align a b).2)

/-- Exact `<` on values. -/
def Dec.lt (a b : Dec) : Bool := decide ((Dec.align a b).1 < (Dec.align a b).2)

/-- Python `float_val == int(float_val)`: the value is an integer. -/
def Dec.isInt (d : Dec) : Bool :=
  if 0 ≤ d.e then true else decide (d.m % pow10 (-d.e).toNat = 0)

/-- Mathematical floor of the value. -/
def Dec.floor (d : Dec) : Int :=
  if 0 ≤ d.e then d.m * pow10 d.e.toNat else d.m.fdiv (pow10 (-d.e).toNat)

/-- Exact subtraction of an integer from the value. -/
def Dec.subInt (d : Dec) (n : Int) : Dec :=
  if 0 ≤ d.e then ⟨d.m * pow10 d.e.toNat - n, 0⟩
  else ⟨d.m - n * pow10 (-d.e).toNat, d.e⟩

/-- Exponent digits: the whole remainder must be one valid digit group. -/
def expDigits (cs : List Char) : Option Int :=
  if validRun cs then some (digitsValN cs : Int) else none

/-- Optional exponent part: empty, or `e`/`E` with optional sign and digits,
consuming the whole remainder. -/
def pyExp : List Char → Option Int
  | [] => some 0
  | c :: rest =>
    if c = 'e' ∨ c = 'E' then
      match rest with
      | '+' :: r2 => expDigits r2
      | '-' :: r2 => (expDigits r2).map (fun n => -n)
      | r2 => expDigits r2
    else none

/-- Unsigned mantissa with optional fraction and exponent: the value
`ip.fp × 10^e` is the decimal `(ip × 10^|fp| + fp) × 10^(e - |fp|)`. -/
def pyUnsigned (cs : List Char) : Option Dec :=
  let ip := cs.takeWhile isDU
  let r1 := cs.dropWhile isDU
  match r1 with
  | '.' :: r2 =>
    let fp := r2.takeWhile isDU
    let r3 := r2.dropWhile isDU
    if ip = [] && fp = [] then none
    else if (ip = [] || validRun ip) && (fp = [] || validRun fp) then
      match pyExp r3 with
      | some e =>
          some ⟨(digitsValN ip : Int) * pow10 (digitsLen fp) + (digitsValN fp : Int),
                e - (digitsLen fp : Int)⟩
      | none => none
    else none
  | _ =>
    if validRun ip then
      match pyExp r1 with
      | some e => some ⟨(digitsValN ip : Int), e⟩
      | none => none
    else none

/-- Model of Python `float(s)` on the finite-decimal fragment; `none` models
`ValueError`. -/
def pyFloat? (cs0 : List Char) : Option Dec :=
  match trimWs cs0 with
  | '+' :: rest => pyUnsigned rest
  | '-' :: rest => (pyUnsigned rest).map Dec.neg
  | cs1 => pyUnsigned cs1

/-- Model of Python `int(s)` on decimal strings; `none` models `ValueError`. -/
def pyInt? (cs0 : List Char) : Option Int :=
  match trimWs cs0 with
  | '+' :: rest => if validRun rest then some (digitsValN rest : Int) else none
  | '-' :: rest => if validRun rest then some (-(digitsValN rest : Int)) else none
  | cs1 => if validRun cs1 then some (digitsValN cs1 : Int) else none

/-! ## `FormatParser` — amounts (`src/core/format_parser.py`)

`parse_amount` result dictionaries are modelled by `AmountResult`; a field is
`none` when the corresponding key is absent from the returned dictionary.
The `original_value` key only appears in the dead outer exception handler of
`parse_amount` (no inner operation can raise anything uncaught), so it is not
modelled. -/

structure AmountResult where
  parsed_value : Option Dec
  currency : Option String
  is_negative : Bool
  error : Option String
  abbreviation : Option Char
  multiplier : Option Int
  base_value : Option Dec
  format : Option String
deriving DecidableEq, Repr

/-- `{'parsed_value': None, 'currency': None, 'is_negative': False,
'error': 'Empty value'}`. -/
def emptyAmount : AmountResult :=
  { parsed_value := none, currency := none, is_negative := false,
    error := some "Empty value", abbreviation := none, multiplier := none,
    base_value := none, format := none }

/-- The currency symbol table `{$: USD, €: EUR, ₹: INR, £: GBP, ¥: JPY}`,
in its insertion order. -/
def currencySymbols : List (Char × String) :=
  [('$', "USD"), ('€', "EUR"), ('₹', "INR"), ('£', "GBP"), ('¥', "JPY")]

def isCurrencySym (c : Char) : Bool :=
  c ∈ ['$', '€', '₹', '£', '¥']

/-- `value.upper().endswith(a)` for a single-character suffix. -/
def upperEndsWith (cs : List Char) (a : Char) : Bool :=
  match cs.getLast? with
  | some c => c.toUpper = a
  | none => false

/-- `value.startswith('(')`. -/
def startsWithChar (cs : List Char) (a : Char) : Bool :=
  match cs.head? with
  | some c => c = a
  | none => false

/-- `value.endswith(a)` for a single character. -/
def endsWithChar (cs : List Char) (a : Char) : Bool :=
  match cs.getLast? with
  | some c => c = a
  | none => false

/-! ### `normalize_currency` -/

def isDigitComma (c : Char) : Bool := isDigitChar c || c = ','

/-- Three digits follow (at least; prefix test for `\d{3}`). -/
def threeDigits : List Char → Bool
  | d1 :: d2 :: d3 :: _ => isDigitChar d1 && isDigitChar d2 && isDigitChar d3
  | _ => false

/-- After at least one `[\d,]` character was consumed: either a `.` followed
by three digits comes next, or another `[\d,]` character and we continue.
This realises the backtracking of `[\d,]+\.\d{3}` at a fixed start. -/
def euroTail : List Char → Bool
  | [] => false
  | c :: r => (c = '.' && threeDigits r) || (isDigitComma c && euroTail r)

/-- `[\d,]+\.\d{3}` matches starting exactly here. -/
def euroAt : List Char → Bool
  | [] => false
  | c :: r => isDigitComma c && euroTail r

/-- `re.search(r'[\d,]+\.\d{3}', s)`: the pattern matches somewhere. -/
def searchEuro : List Char → Bool
  | [] => false
  | c :: cs => euroAt (c :: cs) || searchEuro cs

/-- `re.sub(r'(\d+)\.(\d{3})', r'\1\2', s)`: scan left to right; at a digit,
the greedy `\d+` takes the whole digit run, and if a `.` followed by (at
least) three digits comes next, the run and exactly three digits are kept and
the dot dropped, resuming after them (global, non-overlapping). -/
def subEuroF : Nat → List Char → List Char
  | _, [] => []
  | 0, cs => cs
  | fuel + 1, c :: cs =>
    if isDigitChar c then
      let run := c :: cs.takeWhile isDigitChar
      let rest := cs.dropWhile isDigitChar
      match rest with
      | '.' :: d1 :: d2 :: d3 :: rest2 =>
        if isDigitChar d1 && isDigitChar d2 && isDigitChar d3 then
          run ++ [d1, d2, d3] ++ subEuroF fuel rest2
        else run ++ subEuroF fuel rest
      | _ => run ++ subEuroF fuel rest
    else c :: subEuroF fuel cs

def subEuro (cs : List Char) : List Char :=
  subEuroF cs.length cs

/-- `s.replace(',', '.')`. -/
def commaToDot (cs : List Char) : List Char :=
  cs.map (fun c => if c = ',' then '.' else c)

/-- `re.sub(r'(\d),(\d{3})', r'\1\2', s)`: global left-to-right scan; a digit,
a comma and exactly three digits are replaced by the four digits, resuming
after them. -/
def subThousand : List Char → List Char
  | [] => []
  | c :: e0 :: e1 :: e2 :: e3 :: rest =>
    if isDigitChar c && e0 = ',' && isDigitChar e1 && isDigitChar e2 &&
        isDigitChar e3 then
      c :: e1 :: e2 :: e3 :: subThousand rest
    else c :: subThousand (e0 :: e1 :: e2 :: e3 :: rest)
  | c :: cs => c :: subThousand cs

/-- `FormatParser.normalize_currency`. -/
def normalize_currency (cs : List Char) : List Char :=
  let n1 :=
    if searchEuro cs then commaToDot (subEuro cs)
    else cs
  subThousand n1

/-! ### `_parse_normalized_amount` and the special formats -/

/-- First currency code whose symbol occurs in the string, in the table's
insertion order (the loop over `self.currency_symbols.items()`). -/
def currencyOf (cs : List Char) : Option String :=
  (currencySymbols.find? (fun sc => cs.any (fun c => c = sc.1))).map (·.2)

/-- The success dictionary of `_parse_normalized_amount`:
`abs(parsed_value)` with the sign moved to `is_negative`. -/
def mkStandardResult (currency : Option String) (q : Dec) : AmountResult :=
  { parsed_value := some q.abs, currency := currency,
    is_negative := q.isNeg, error := none, abbreviation := none,
    multiplier := none, base_value := none, format := some "standard" }

/-- `{'parsed_value': None, …, 'error': 'Invalid numeric format: …'}`. -/
def invalidNumeric : AmountResult :=
  { parsed_value := none, currency := none, is_negative := false,
    error := some "Invalid numeric format", abbreviation := none,
    multiplier := none, base_value := none, format := none }

/-- `FormatParser._parse_normalized_amount`. -/
def parse_normalized_amount (nv : List Char) : AmountResult :=
  let currency := currencyOf nv
  let clean := nv.filter (fun c => !isCurrencySym c)
  match pyFloat? clean with
  | some q => mkStandardResult currency q
  | none => invalidNumeric

/-- `value[:-1] if len(value) > 1 else value`: the numeric part tried by the
abbreviated-suffix rule. -/
def numericPart (cs : List Char) : List Char :=
  if 1 < cs.length then cs.dropLast else cs

def mkAbbrevResult (ab : Char) (kexp : Nat) (b : Dec) : AmountResult :=
  { parsed_value := some (b.shift10 kexp), currency := none,
    is_negative := false, error := none, abbreviation := some ab,
    multiplier := some (pow10 kexp), base_value := some b, format := none }

/-- One iteration of the loop over `abbreviation_multipliers`: if the
upper-cased value ends with the abbreviation, try to parse the numeric part;
on `ValueError` the loop just continues (`pass`).  The multiplier `10^kexp`
makes `base_value * multiplier` the exact decimal shift `shift10 kexp`. -/
def tryAbbrev1 (cs : List Char) (ab : Char) (kexp : Nat) : Option AmountResult :=
  if upperEndsWith cs ab then
    (pyFloat? (numericPart cs)).map (mkAbbrevResult ab kexp)
  else none

/-- The loop over `{K: 1e3, M: 1e6, B: 1e9, T: 1e12}` in insertion order. -/
def tryAbbrev (cs : List Char) : Option AmountResult :=
  match tryAbbrev1 cs 'K' 3 with
  | some r => some r
  | none =>
    match tryAbbrev1 cs 'M' 6 with
    | some r => some r
    | none =>
      match tryAbbrev1 cs 'B' 9 with
      | some r => some r
      | none => tryAbbrev1 cs 'T' 12

/-- The success dictionary of the parenthetical-negative rule. -/
def mkParenResult (q : Dec) : AmountResult :=
  { parsed_value := some q.abs, currency := none, is_negative := true,
    error := none, abbreviation := none, multiplier := none,
    base_value := none, format := some "parentheses_negative" }

/-- The success dictionary of the trailing-negative rule. -/
def mkTrailResult (q : Dec) : AmountResult :=
  { parsed_value := some q.abs, currency := none, is_negative := true,
    error := none, abbreviation := none, multiplier := none,
    base_value := none, format := some "trailing_negative" }

/-- `{'parsed_value': None, …, 'error': 'Unrecognized special format: …'}`. -/
def unrecognizedSpecial : AmountResult :=
  { parsed_value := none, currency := none, is_negative := false,
    error := some "Unrecognized special format", abbreviation := none,
    multiplier := none, base_value := none, format := none }

/-- Parenthetical negative: `(…)` with the inner text normalized and parsed;
`ValueError` falls through (`pass`). -/
def tryParens (cs : List Char) : Option AmountResult :=
  if startsWithChar cs '(' && endsWithChar cs ')' then
    (pyFloat? (normalize_currency ((cs.drop 1).dropLast))).map mkParenResult
  else none

/-- Trailing negative: `…-` with the rest normalized and parsed; `ValueError`
falls through (`pass`). -/
def tryTrailing (cs : List Char) : Option AmountResult :=
  if endsWithChar cs '-' then
    (pyFloat? (normalize_currency cs.dropLast)).map mkTrailResult
  else none

/-- `FormatParser.handle_special_formats`. -/
def handle_special_formats (cs : List Char) : AmountResult :=
  match tryAbbrev cs with
  | some r => r
  | none =>
    match tryParens cs with
    | some r => r
    | none =>
      match tryTrailing cs with
      | some r => r
      | none => unrecognizedSpecial

/-- `FormatParser._is_special_format`. -/
def is_special_format (cs : List Char) : Bool :=
  upperEndsWith cs 'K' || upperEndsWith cs 'M' || upperEndsWith cs 'B' ||
    upperEndsWith cs 'T' ||
  (startsWithChar cs '(' && endsWithChar cs ')') ||
  endsWithChar cs '-'

/-- Body of `parse_amount` on the stripped string. -/
def parse_amount_str (t : List Char) : AmountResult :=
  if is_special_format t then handle_special_formats t
  else parse_normalized_amount (normalize_currency t)

/-- `FormatParser.parse_amount`.  `none` models a null (`pd.isna`) input;
the `value == ''` test happens before stripping, exactly as in the source. -/
def parse_amount (v : Option String) : AmountResult :=
  match v with
  | none => emptyAmount
  | some sv =>
    if sv = "" then emptyAmount
    else parse_amount_str (trimWs sv.toList)

/-! ## Calendar arithmetic (`datetime` and `pd.Timedelta`)

Python's `datetime` uses the proleptic Gregorian calendar.  We model a
`datetime` by its `(year, month, day)` triple (the time-of-day component is
never inspected by the source once a date is built, except through
`year/month/day`).  `civilFromDays` converts a day count relative to
1970-01-01 into a calendar date (standard civil-from-days algorithm);
ordinal 1 is 0001-01-01, so `datetime(1900, 1, 1)` has ordinal 693596 and
1970-01-01 has ordinal 719163. -/

def isLeap (y : Int) : Bool :=
  y % 4 = 0 && (y % 100 ≠ 0 || y % 400 = 0)

def daysInMonth (y : Int) (m : Nat) : Nat :=
  if m = 2 then (if isLeap y then 29 else 28)
  else if m ∈ [4, 6, 9, 11] then 30
  else 31

/-- `datetime(year, month, day)`: `none` models the `ValueError` raised on an
out-of-range component (`datetime.MINYEAR = 1`, `MAXYEAR = 9999`). -/
def mkDatetime (y : Int) (m d : Nat) : Option (Int × Nat × Nat) :=
  if 1 ≤ y ∧ y ≤ 9999 ∧ 1 ≤ m ∧ m ≤ 12 ∧ 1 ≤ d ∧ d ≤ daysInMonth y m then
    some (y, m, d)
  else none

/-- Civil date from a count of days since 1970-01-01 (proleptic Gregorian). -/
def civilFromDays (z0 : Int) : Int × Nat × Nat :=
  let z := z0 + 719468
  let era := z.fdiv 146097
  let doe := (z - era * 146097).toNat
  let yoe := (doe - doe / 1460 + doe / 36524 - doe / 146096) / 365
  let y : Int := (yoe : Int) + era * 400
  let doy := doe - (365 * yoe + yoe / 4 - yoe / 100)
  let mp := (5 * doy + 2) / 153
  let d := doy - (153 * mp + 2) / 5 + 1
  let m := if mp < 10 then mp + 3 else mp - 9
  (if m ≤ 2 then y + 1 else y, m, d)

/-- Civil date from a proleptic-Gregorian ordinal (ordinal 1 = 0001-01-01). -/
def civilFromOrdinal (ord : Int) : Int × Nat × Nat :=
  civilFromDays (ord - 719163)

/-! ## `FormatParser` — dates

`parse_date` result dictionaries are modelled by `DateResult` (a `none` field
models an absent key).  The free-form `dateutil.parser.parse` fallback is a
third-party library, not part of this repository; it is a parameter `du` of
the model (`none` models its `ParserError`), and every theorem that depends
on it states the needed facts about `du` explicitly. -/

structure DateResult where
  parsed_value : Option (Int × Nat × Nat)
  format : Option String
  error : Option String
  year : Option Int
  month : Option Nat
  day : Option Nat
  quarter : Option Nat
  serial_date : Option Dec
  month_name : Option (List Char)
  original_value : Option (List Char)
deriving DecidableEq, Repr

/-- `{'parsed_value': None, 'format': None, 'error': 'Empty value'}`. -/
def emptyDate : DateResult :=
  { parsed_value := none, format := none, error := some "Empty value",
    year := none, month := none, day := none, quarter := none,
    serial_date := none, month_name := none, original_value := none }

/-- A fully-populated success dictionary from a `(year, month, day)` triple. -/
def dateSuccess (fmt : String) (ymd : Int × Nat × Nat) : DateResult :=
  { parsed_value := some ymd, format := some fmt, error := none,
    year := some ymd.1, month := some ymd.2.1, day := some ymd.2.2,
    quarter := none, serial_date := none, month_name := none,
    original_value := none }

/-- `FormatParser._is_excel_serial_date`. -/
def is_excel_serial_date (t : List Char) : Bool :=
  match pyFloat? t with
  | some q => Dec.le (Dec.ofInt 1) q && Dec.le q (Dec.ofInt 100000)
  | none => false

/-- `FormatParser._parse_excel_serial_date`: serial values above 59 are
decremented (1900 leap-year artifact), then
`datetime(1900, 1, 1) + pd.Timedelta(days=serial - 1)`. -/
def parse_excel_serial_date (t : List Char) : DateResult :=
  match pyFloat? t with
  | some q =>
    let s := if Dec.lt (Dec.ofInt 59) q then q.subInt 1 else q
    let ymd := civilFromOrdinal (693596 + (s.floor - 1))
    { parsed_value := some ymd, format := some "excel_serial", error := none,
      year := some ymd.1, month := some ymd.2.1, day := some ymd.2.2,
      quarter := none, serial_date := some s, month_name := none,
      original_value := none }
  | none =>
    { parsed_value := none, format := some "excel_serial",
      error := some "Invalid Excel serial date", year := none, month := none,
      day := none, quarter := none, serial_date := none, month_name := none,
      original_value := none }

/-! ### The `date_patterns` grammar matchers (prefix matches, `re.match`) -/

/-- `(\d{1,2})/(\d{1,2})/(\d{4})`: used for both `MM/DD/YYYY` and
`DD/MM/YYYY` (textually identical patterns). -/
def match_slash_date (cs : List Char) : Option (Nat × Nat × Nat) :=
  let r1 := cs.takeWhile isDigitChar
  let s1 := cs.dropWhile isDigitChar
  if r1.length = 1 ∨ r1.length = 2 then
    match s1 with
    | '/' :: cs2 =>
      let r2 := cs2.takeWhile isDigitChar
      let s2 := cs2.dropWhile isDigitChar
      if r2.length = 1 ∨ r2.length = 2 then
        match s2 with
        | '/' :: a :: b :: c :: d :: _ =>
          if isDigitChar a && isDigitChar b && isDigitChar c && isDigitChar d then
            some (natOfDigits r1, natOfDigits r2, natOfDigits [a, b, c, d])
          else none
        | _ => none
      else none
    | _ => none
  else none

/-- `(\d{4})-(\d{1,2})-(\d{1,2})`. -/
def match_ymd (cs : List Char) : Option (Nat × Nat × Nat) :=
  match cs with
  | a :: b :: c :: d :: '-' :: rest =>
    if isDigitChar a && isDigitChar b && isDigitChar c && isDigitChar d then
      let r2 := rest.takeWhile isDigitChar
      let s2 := rest.dropWhile isDigitChar
      if r2.length = 1 ∨ r2.length = 2 then
        match s2 with
        | '-' :: rest2 =>
          let r3 := (rest2.takeWhile isDigitChar).take 2
          if r3 = [] then none
          else some (natOfDigits [a, b, c, d], natOfDigits r2, natOfDigits r3)
        | _ => none
      else none
    else none
  | _ => none

/-- `(\d{1,2})-(\w{3})-(\d{4})`. -/
def match_dmony (cs : List Char) : Option (Nat × List Char × Nat) :=
  let r1 := cs.takeWhile isDigitChar
  let s1 := cs.dropWhile isDigitChar
  if r1.length = 1 ∨ r1.length = 2 then
    match s1 with
    | '-' :: w1 :: w2 :: w3 :: rest =>
      if isWordChar w1 && isWordChar w2 && isWordChar w3 then
        match rest with
        | '-' :: a :: b :: c :: d :: _ =>
          if isDigitChar a && isDigitChar b && isDigitChar c && isDigitChar d then
            some (natOfDigits r1, [w1, w2, w3], natOfDigits [a, b, c, d])
          else none
        | _ => none
      else none
    | _ => none
  else none

/-- `Q([1-4])\s+(\d{4})` with `re.IGNORECASE`. -/
def match_quarter_long (cs : List Char) : Option (Nat × Nat) :=
  match cs with
  | q :: n :: rest =>
    if q.toUpper = 'Q' && (n ∈ ['1', '2', '3', '4']) then
      let ws := rest.takeWhile isWsChar
      let s := rest.dropWhile isWsChar
      if ws ≠ [] then
        match s with
        | a :: b :: c :: d :: _ =>
          if isDigitChar a && isDigitChar b && isDigitChar c && isDigitChar d then
            some (n.toNat - 48, natOfDigits [a, b, c, d])
          else none
        | _ => none
      else none
    else none
  | _ => none

/-- `Q([1-4])-(\d{2})` with `re.IGNORECASE`. -/
def match_quarter_short (cs : List Char) : Option (Nat × Nat) :=
  match cs with
  | q :: n :: '-' :: a :: b :: _ =>
    if q.toUpper = 'Q' && (n ∈ ['1', '2', '3', '4']) &&
        isDigitChar a && isDigitChar b then
      some (n.toNat - 48, natOfDigits [a, b])
    else none
  | _ => none

/-- `(\w+)\s+(\d{4})`. -/
def match_month_year (cs : List Char) : Option (List Char × Nat) :=
  let w := cs.takeWhile isWordChar
  let s1 := cs.dropWhile isWordChar
  if w ≠ [] then
    let ws := s1.takeWhile isWsChar
    let s2 := s1.dropWhile isWsChar
    if ws ≠ [] then
      match s2 with
      | a :: b :: c :: d :: _ =>
        if isDigitChar a && isDigitChar b && isDigitChar c && isDigitChar d then
          some (w, natOfDigits [a, b, c, d])
        else none
      | _ => none
    else none
  else none

/-! ### Pattern handlers (`_parse_date_pattern` and friends) -/

/-- Month-abbreviation table of `_month_abbrev_to_num` (unrecognized
abbreviations default to 1). -/
def month_abbrev_to_num (mon : List Char) : Nat :=
  (([(['j','a','n'], 1), (['f','e','b'], 2), (['m','a','r'], 3),
     (['a','p','r'], 4), (['m','a','y'], 5), (['j','u','n'], 6),
     (['j','u','l'], 7), (['a','u','g'], 8), (['s','e','p'], 9),
     (['o','c','t'], 10), (['n','o','v'], 11), (['d','e','c'], 12)] :
      List (List Char × Nat)).lookup (mon.map Char.toLower)).getD 1

/-- Month-name table of `_month_name_to_num` (unrecognized names default
to 1). -/
def month_name_to_num (mon : List Char) : Nat :=
  (([("january".toList, 1), ("february".toList, 2), ("march".toList, 3),
     ("april".toList, 4), ("may".toList, 5), ("june".toList, 6),
     ("july".toList, 7), ("august".toList, 8), ("september".toList, 9),
     ("october".toList, 10), ("november".toList, 11),
     ("december".toList, 12)] :
      List (List Char × Nat)).lookup (mon.map Char.toLower)).getD 1

/-- Success or `Parse error` dictionary of `_parse_date_pattern` for a
supported pattern name. -/
def mkPatternResult (name : String) (t : List Char)
    (r : Option (Int × Nat × Nat)) : DateResult :=
  match r with
  | some ymd => dateSuccess name ymd
  | none =>
    { parsed_value := none, format := some name,
      error := some "Parse error", year := none, month := none, day := none,
      quarter := none, serial_date := none, month_name := none,
      original_value := some t }

/-- `{'parsed_value': None, 'format': name,
'error': 'Unsupported pattern: name'}`: the else-branch of
`_parse_date_pattern`, reached for the `Quarter` and `Month-Year` entries of
`date_patterns`. -/
def unsupported_pattern (name : String) : DateResult :=
  { parsed_value := none, format := some name,
    error := some ("Unsupported pattern: " ++ name), year := none,
    month := none, day := none, quarter := none, serial_date := none,
    month_name := none, original_value := none }

/-- The `for pattern_name, pattern in self.date_patterns.items()` loop of
`parse_date`, in the dictionary's insertion order: the `DD/MM/YYYY` entry
repeats the `MM/DD/YYYY` regex and is therefore unreachable. -/
def date_patterns_loop (t : List Char) : Option DateResult :=
  match match_slash_date t with
  | some (g1, g2, g3) =>
    some (mkPatternResult "MM/DD/YYYY" t (mkDatetime g3 g1 g2))
  | none =>
    match match_slash_date t with
    | some (g1, g2, g3) =>
      some (mkPatternResult "DD/MM/YYYY" t (mkDatetime g3 g2 g1))
    | none =>
      match match_ymd t with
      | some (y, m, d) =>
        some (mkPatternResult "YYYY-MM-DD" t (mkDatetime y m d))
      | none =>
        match match_dmony t with
        | some (d, mon, y) =>
          some (mkPatternResult "DD-MON-YYYY" t
            (mkDatetime y (month_abbrev_to_num mon) d))
        | none =>
          match match_quarter_long t with
          | some _ => some (unsupported_pattern "Quarter")
          | none =>
            match match_month_year t with
            | some _ => some (unsupported_pattern "Month-Year")
            | none => none

/-- `FormatParser._parse_quarter_format`. -/
def parse_quarter_format (t : List Char) : DateResult :=
  match match_quarter_long t with
  | some (q, y) =>
    match mkDatetime y ((q - 1) * 3 + 1) 1 with
    | some ymd =>
      { parsed_value := some ymd, format := some "quarter", error := none,
        year := some ymd.1, month := some ymd.2.1, day := some ymd.2.2,
        quarter := some q, serial_date := none, month_name := none,
        original_value := none }
    | none =>
      { parsed_value := none, format := some "quarter",
        error := some "Parse error", year := none, month := none, day := none,
        quarter := none, serial_date := none, month_name := none,
        original_value := some t }
  | none =>
    match match_quarter_short t with
    | some (q, yy) =>
      match mkDatetime (2000 + (yy : Int)) ((q - 1) * 3 + 1) 1 with
      | some ymd =>
        { parsed_value := some ymd, format := some "quarter_short",
          error := none, year := some ymd.1, month := some ymd.2.1,
          day := some ymd.2.2, quarter := some q, serial_date := none,
          month_name := none, original_value := none }
      | none =>
        { parsed_value := none, format := some "quarter",
          error := some "Parse error", year := none, month := none,
          day := none, quarter := none, serial_date := none,
          month_name := none, original_value := some t }
    | none =>
      { parsed_value := none, format := some "quarter",
        error := some "Invalid quarter format", year := none, month := none,
        day := none, quarter := none, serial_date := none, month_name := none,
        original_value := none }

/-- `FormatParser._parse_month_year_format`. -/
def parse_month_year_format (t : List Char) : DateResult :=
  match wordsSplit t with
  | month_str :: year_str :: _ =>
    let mn := month_name_to_num month_str
    match pyInt? year_str with
    | some y =>
      match mkDatetime y mn 1 with
      | some ymd =>
        { parsed_value := some ymd, format := some "month_year",
          error := none, year := some ymd.1, month := some ymd.2.1,
          day := some ymd.2.2, quarter := none, serial_date := none,
          month_name := some month_str, original_value := none }
      | none =>
        { parsed_value := none, format := some "month_year",
          error := some "Parse error", year := none, month := none,
          day := none, quarter := none, serial_date := none,
          month_name := none, original_value := some t }
    | none =>
      { parsed_value := none, format := some "month_year",
        error := some "Parse error", year := none, month := none, day := none,
        quarter := none, serial_date := none, month_name := none,
        original_value := some t }
  | _ =>
    { parsed_value := none, format := some "month_year",
      error := some "Invalid month-year format", year := none, month := none,
      day := none, quarter := none, serial_date := none, month_name := none,
      original_value := none }

/-- `{'parsed_value': None, 'format': None, 'error': 'Unrecognized date
format: …'}`. -/
def unrecognizedDate (t : List Char) : DateResult :=
  { parsed_value := none, format := none,
    error := some "Unrecognized date format", year := none, month := none,
    day := none, quarter := none, serial_date := none, month_name := none,
    original_value := some t }

/-- Body of `parse_date` on the stripped string, with the result of the
`dateutil.parser.parse` attempt passed in as `dres`. -/
def parse_date_core (dres : Option (Int × Nat × Nat)) (t : List Char) :
    DateResult :=
  if is_excel_serial_date t then parse_excel_serial_date t
  else
    match dres with
    | some ymd => dateSuccess "dateutil_parsed" ymd
    | none =>
      match date_patterns_loop t with
      | some r => r
      | none =>
        if t.any (fun c => c.toUpper = 'Q') then parse_quarter_format t
        else if (match_month_year t).isSome then parse_month_year_format t
        else unrecognizedDate t

/-- `FormatParser.parse_date`.  `du` models the external
`dateutil.parser.parse` (year/month/day of the parsed datetime, `none` for a
parse failure); `none` input models a null value, and the `value == ''` test
happens before stripping, exactly as in the source. -/
def parse_date (du : List Char → Option (Int × Nat × Nat))
    (v : Option String) : DateResult :=
  match v with
  | none => emptyDate
  | some sv =>
    if sv = "" then emptyDate
    else parse_date_core (du (trimWs sv.toList)) (trimWs sv.toList)

/-! ## `DataTypeDetector` (`src/core/type_detector.py`)

The classifier works on a sample of cell values; nulls are modelled by
`none` (removed by `dropna`), every other cell by its string form
(`astype(str)`). -/

/-! ### The `date_patterns` list of the detector (prefix matches) -/

/-- `\d{1,2}/\d{1,2}/\d{2,4}`. -/
def tdSlash (cs : List Char) : Bool :=
  let r1 := cs.takeWhile isDigitChar
  let s1 := cs.dropWhile isDigitChar
  (r1.length = 1 || r1.length = 2) &&
    match s1 with
    | '/' :: cs2 =>
      let r2 := cs2.takeWhile isDigitChar
      let s2 := cs2.dropWhile isDigitChar
      (r2.length = 1 || r2.length = 2) &&
        match s2 with
        | '/' :: a :: b :: _ => isDigitChar a && isDigitChar b
        | _ => false
    | _ => false

/-- `\d{4}-\d{1,2}-\d{1,2}`. -/
def tdYmd (cs : List Char) : Bool :=
  match cs with
  | a :: b :: c :: d :: '-' :: rest =>
    isDigitChar a && isDigitChar b && isDigitChar c && isDigitChar d &&
      (let r2 := rest.takeWhile isDigitChar
       let s2 := rest.dropWhile isDigitChar
       (r2.length = 1 || r2.length = 2) &&
        match s2 with
        | '-' :: e :: _ => isDigitChar e
        | _ => false)
  | _ => false

/-- `\d{1,2}-\w{3}-\d{2,4}`. -/
def tdDMon (cs : List Char) : Bool :=
  let r1 := cs.takeWhile isDigitChar
  let s1 := cs.dropWhile isDigitChar
  (r1.length = 1 || r1.length = 2) &&
    match s1 with
    | '-' :: w1 :: w2 :: w3 :: rest =>
      isWordChar w1 && isWordChar w2 && isWordChar w3 &&
        match rest with
        | '-' :: a :: b :: _ => isDigitChar a && isDigitChar b
        | _ => false
    | _ => false

/-- `Q[1-4]\s+\d{4}` (with `re.IGNORECASE`). -/
def tdQuarterLong (cs : List Char) : Bool :=
  match cs with
  | q :: n :: rest =>
    q.toUpper = 'Q' && (n ∈ ['1', '2', '3', '4']) &&
      (let ws := rest.takeWhile isWsChar
       let s := rest.dropWhile isWsChar
       !ws.isEmpty &&
        match s with
        | a :: b :: c :: d :: _ =>
          isDigitChar a && isDigitChar b && isDigitChar c && isDigitChar d
        | _ => false)
  | _ => false

/-- `Q[1-4]-\d{2}` (with `re.IGNORECASE`). -/
def tdQuarterShort (cs : List Char) : Bool :=
  match cs with
  | q :: n :: '-' :: a :: b :: _ =>
    q.toUpper = 'Q' && (n ∈ ['1', '2', '3', '4']) &&
      isDigitChar a && isDigitChar b
  | _ => false

/-- `\w{3}\s+\d{4}`. -/
def tdMon3 (cs : List Char) : Bool :=
  match cs with
  | w1 :: w2 :: w3 :: rest =>
    isWordChar w1 && isWordChar w2 && isWordChar w3 &&
      (let ws := rest.takeWhile isWsChar
       let s := rest.dropWhile isWsChar
       !ws.isEmpty &&
        match s with
        | a :: b :: c :: d :: _ =>
          isDigitChar a && isDigitChar b && isDigitChar c && isDigitChar d
        | _ => false)
  | _ => false

/-- `\w+\s+\d{4}`. -/
def tdMonFull (cs : List Char) : Bool :=
  let w := cs.takeWhile isWordChar
  let s1 := cs.dropWhile isWordChar
  !w.isEmpty &&
    (let ws := s1.takeWhile isWsChar
     let s2 := s1.dropWhile isWsChar
     !ws.isEmpty &&
      match s2 with
      | a :: b :: c :: d :: _ =>
        isDigitChar a && isDigitChar b && isDigitChar c && isDigitChar d
      | _ => false)

/-- Some pattern of `DataTypeDetector.date_patterns` matches (the loops break
at the first match, which for a boolean score is a disjunction). -/
def matchesAnyTDPattern (cs : List Char) : Bool :=
  tdSlash cs || tdYmd cs || tdDMon cs || tdQuarterLong cs ||
    tdQuarterShort cs || tdMon3 cs || tdMonFull cs

/-- `^[\d.]+[KMB]$` with `re.IGNORECASE` (abbreviated-amount test of
`_detect_number_format`). -/
def tdAbbrev (cs : List Char) : Bool :=
  match cs.getLast? with
  | some c =>
    (c.toUpper = 'K' || c.toUpper = 'M' || c.toUpper = 'B') &&
      !cs.dropLast.isEmpty &&
      cs.dropLast.all (fun x => isDigitChar x || x = '.')
  | none => false

/-! ### The two score functions -/

/-- One sample value's contribution to `_detect_date_format`: an
integer-valued float in `[1000, 73050]`, or a match of some date pattern. -/
def dateIndicator (v : String) : Bool :=
  let vs := trimWs v.toList
  (match pyFloat? vs with
   | some q => q.isInt && Dec.le (Dec.ofInt 1000) q && Dec.le q (Dec.ofInt 73050)
   | none => false) ||
  matchesAnyTDPattern vs

/-- One sample value's contribution to `_detect_number_format`: values that
match a date pattern are skipped; otherwise strip `[$€₹£¥,()]` and `-` and
try `float`, then try the abbreviated format. -/
def numberIndicator (v : String) : Bool :=
  let vs := trimWs v.toList
  if matchesAnyTDPattern vs then false
  else
    let clean := (vs.filter
      (fun c => !(isCurrencySym c || c = ',' || c = '(' || c = ')'))).filter
      (fun c => c ≠ '-')
    (pyFloat? clean).isSome || tdAbbrev vs

/-- `DataTypeDetector._detect_date_format` (the score). -/
def detect_date_format_frac (l : List String) : ℚ :=
  if l.length = 0 then 0 else (l.countP dateIndicator : ℚ) / (l.length : ℚ)

/-- `DataTypeDetector._detect_number_format` (the score). -/
def detect_number_format_frac (l : List String) : ℚ :=
  if l.length = 0 then 0 else (l.countP numberIndicator : ℚ) / (l.length : ℚ)

/-! ### `format_info` payloads

The `list(set(.))` values of the source have no deterministic order; they are
modelled as `Finset`s.  The regex-pattern lists are identified by index
(0‥6 in the order of `DataTypeDetector.date_patterns`). -/

structure DateFormatInfo where
  detected_patterns : Finset Nat
  excel_serial_dates : Bool
  excel_date_count : Nat
  sample_excel_dates : List Dec
deriving DecidableEq

/-- Index of the first matching detector date pattern, if any (the inner
`break` keeps only the first). -/
def firstTDPattern (cs : List Char) : Option Nat :=
  if tdSlash cs then some 0
  else if tdYmd cs then some 1
  else if tdDMon cs then some 2
  else if tdQuarterLong cs then some 3
  else if tdQuarterShort cs then some 4
  else if tdMon3 cs then some 5
  else if tdMonFull cs then some 6
  else none

/-- `DataTypeDetector.detect_date_format` (note: no stripping here; `float`
itself ignores surrounding whitespace). -/
def detect_date_format_info (l : List String) : DateFormatInfo :=
  let excel := (l.filterMap (fun v => pyFloat? v.toList)).filter
    (fun q => Dec.le (Dec.ofInt 1) q && Dec.le q (Dec.ofInt 100000))
  { detected_patterns :=
      (l.filterMap (fun v => firstTDPattern v.toList)).toFinset,
    excel_serial_dates := decide (0 < excel.length),
    excel_date_count := excel.length,
    sample_excel_dates := excel.take 5 }

structure NumberFormatInfo where
  currency_symbols : Finset Char
  decimal_separators : Finset Char
  thousand_separators : Finset Char
  negative_formats : Finset String
  abbreviated_formats : Bool
deriving DecidableEq

/-- `re.search(r'\(.*\)', s)`: a `(` with a later `)` and no newline between
(`.` does not match a newline). -/
def parenScan : List Char → Bool
  | [] => false
  | c :: cs =>
    (c = '(' && ((cs.takeWhile (fun x => x ≠ '\n')).any (fun x => x = ')'))) ||
      parenScan cs

/-- `DataTypeDetector.detect_number_format`. -/
def detect_number_format_info (l : List String) : NumberFormatInfo :=
  { currency_symbols :=
      (l.filterMap (fun v => v.toList.find? isCurrencySym)).toFinset,
    decimal_separators :=
      (l.filterMap (fun v =>
        v.toList.find? (fun c => c = '.' || c = ','))).toFinset,
    thousand_separators :=
      ((l.filter (fun v =>
        (((v.toList.dropWhile (fun c => !isDigitComma c)).takeWhile
          isDigitComma).any (fun c => c = ',')))).map (fun _ => ',')).toFinset,
    negative_formats :=
      (l.filter (fun v =>
        parenScan v.toList || endsWithChar v.toList '-')).toFinset,
    abbreviated_formats :=
      l.any (fun v =>
        match v.toList.getLast? with
        | some c => c = 'K' || c = 'M' || c = 'B'
        | none => false) }

structure StrFormatInfo where
  account_related : Nat
  transaction_related : Nat
  company_related : Nat
  sample_accounts : List String
  sample_transactions : List String
  sample_companies : List String
deriving DecidableEq

def containsAnyWord (v : String) (ws : List String) : Bool :=
  ws.any (fun w => containsSub w.toList (v.toList.map Char.toLower))

/-- `DataTypeDetector.classify_string_type`. -/
def classify_string_type (l : List String) : StrFormatInfo :=
  let accounts := l.filter
    (fun v => containsAnyWord v ["account", "acc", "ledger", "gl"])
  let transactions := l.filter
    (fun v => containsAnyWord v ["transaction", "ref", "invoice", "payment"])
  let companies := l.filter
    (fun v => containsAnyWord v ["inc", "corp", "ltd", "company", "co"])
  { account_related := accounts.length,
    transaction_related := transactions.length,
    company_related := companies.length,
    sample_accounts := accounts.take 3,
    sample_transactions := transactions.take 3,
    sample_companies := companies.take 3 }

inductive FormatInfo where
  | dateInfo : DateFormatInfo → FormatInfo
  | numberInfo : NumberFormatInfo → FormatInfo
  | strInfo : StrFormatInfo → FormatInfo
deriving DecidableEq

/-- `DataTypeDetector._get_format_info`. -/
def get_format_info (l : List String) (detected : String) : FormatInfo :=
  if detected = "date" then .dateInfo (detect_date_format_info l)
  else if detected = "number" then .numberInfo (detect_number_format_info l)
  else .strInfo (classify_string_type l)

/-! ### `analyze_column` -/

/-- The `scores` dictionary `{'string': …, 'number': …, 'date': …}`. -/
structure Scores where
  string : ℚ
  number : ℚ
  date : ℚ
deriving DecidableEq, Repr

/-- `max(scores, key=scores.get)` followed by `scores[best_type]`: Python's
`max` keeps the first key attaining the maximum, iterating the dictionary in
its insertion order `string`, `number`, `date`. -/
def pyMaxScores (sc : Scores) : String × ℚ :=
  let b1 := ("string", sc.string)
  let b2 := if sc.number > b1.2 then ("number", sc.number) else b1
  if sc.date > b2.2 then ("date", sc.date) else b2

structure ClassResult where
  type : String
  confidence : ℚ
  scores : Scores
  format_info : Option FormatInfo
deriving DecidableEq

/-- `DataTypeDetector.analyze_column`.  The `string_score` computed before
the collapse (`max(0, 1 - date_score - number_score)`) is overwritten in
every branch of the collapse and therefore not bound here. -/
def analyze_column (data : List (Option String)) : ClassResult :=
  let clean := data.filterMap id
  if clean = [] then
    { type := "unknown", confidence := 0,
      scores := { string := 0, number := 0, date := 0 }, format_info := none }
  else
    let date_score := detect_date_format_frac clean
    let number_score := detect_number_format_frac clean
    let scores : Scores :=
      if date_score > 1/2 then { string := 0, number := 0, date := 1 }
      else if number_score > 1/2 then { string := 0, number := 1, date := 0 }
      else { string := 1, number := 0, date := 0 }
    let best := pyMaxScores scores
    { type := best.1, confidence := best.2, scores := scores,
      format_info := some (get_format_info clean best.1) }

/-! # Theorems

## Shape analysis of `parse_amount` results

Every result of `parse_amount` is one of seven explicitly-constructed
dictionaries; the claims about signs, totality and error behaviour follow
from this case analysis. -/

theorem tryAbbrev1_shape {cs : List Char} {ab : Char} {kexp : Nat}
    {r : AmountResult} (h : tryAbbrev1 cs ab kexp = some r) :
    ∃ b, r = mkAbbrevResult ab kexp b := by
  unfold tryAbbrev1 at h
  split at h
  · obtain ⟨b, -, hb⟩ := Option.map_eq_some'.mp h
    exact ⟨b, hb.symm⟩
  · exact absurd h (by simp)

theorem tryAbbrev_shape {cs : List Char} {r : AmountResult}
    (h : tryAbbrev cs = some r) : ∃ ab kexp b, r = mkAbbrevResult ab kexp b := by
  unfold tryAbbrev at h
  cases hK : tryAbbrev1 cs 'K' 3 with
  | some rK =>
    simp only [hK] at h
    obtain ⟨b, hb⟩ := tryAbbrev1_shape hK
    exact ⟨'K', 3, b, (Option.some_inj.mp h) ▸ hb⟩
  | none =>
    simp only [hK] at h
    cases hM : tryAbbrev1 cs 'M' 6 with
    | some rM =>
      simp only [hM] at h
      obtain ⟨b, hb⟩ := tryAbbrev1_shape hM
      exact ⟨'M', 6, b, (Option.some_inj.mp h) ▸ hb⟩
    | none =>
      simp only [hM] at h
      cases hB : tryAbbrev1 cs 'B' 9 with
      | some rB =>
        simp only [hB] at h
        obtain ⟨b, hb⟩ := tryAbbrev1_shape hB
        exact ⟨'B', 9, b, (Option.some_inj.mp h) ▸ hb⟩
      | none =>
        simp only [hB] at h
        obtain ⟨b, hb⟩ := tryAbbrev1_shape h
        exact ⟨'T', 12, b, hb⟩

theorem tryParens_shape {cs : List Char} {r : AmountResult}
    (h : tryParens cs = some r) : ∃ q, r = mkParenResult q := by
  unfold tryParens at h
  split at h
  · obtain ⟨q, -, hq⟩ := Option.map_eq_some'.mp h
    exact ⟨q, hq.symm⟩
  · exact absurd h (by simp)

theorem tryTrailing_shape {cs : List Char} {r : AmountResult}
    (h : tryTrailing cs = some r) : ∃ q, r = mkTrailResult q := by
  unfold tryTrailing at h
  split at h
  · obtain ⟨q, -, hq⟩ := Option.map_eq_some'.mp h
    exact ⟨q, hq.symm⟩
  · exact absurd h (by simp)

theorem handle_special_shape (cs : List Char) :
    (∃ ab kexp b, handle_special_formats cs = mkAbbrevResult ab kexp b) ∨
    (∃ q, handle_special_formats cs = mkParenResult q) ∨
    (∃ q, handle_special_formats cs = mkTrailResult q) ∨
    handle_special_formats cs = unrecognizedSpecial := by
  unfold handle_special_formats
  cases hA : tryAbbrev cs with
  | some rA =>
    obtain ⟨ab, kexp, b, hb⟩ := tryAbbrev_shape hA
    exact Or.inl ⟨ab, kexp, b, hb⟩
  | none =>
    cases hP : tryParens cs with
    | some rP =>
      obtain ⟨q, hq⟩ := tryParens_shape hP
      exact Or.inr (Or.inl ⟨q, hq⟩)
    | none =>
      cases hT : tryTrailing cs with
      | some rT =>
        obtain ⟨q, hq⟩ := tryTrailing_shape hT
        exact Or.inr (Or.inr (Or.inl ⟨q, hq⟩))
      | none => exact Or.inr (Or.inr (Or.inr rfl))

theorem parse_normalized_shape (nv : List Char) :
    (∃ c q, parse_normalized_amount nv = mkStandardResult c q) ∨
    parse_normalized_amount nv = invalidNumeric := by
  unfold parse_normalized_amount
  cases h : pyFloat? (nv.filter (fun c => !isCurrencySym c)) with
  | some q => exact Or.inl ⟨currencyOf nv, q, by simp [h]⟩
  | none => exact Or.inr (by simp [h])

theorem parse_amount_shape (v : Option String) :
    parse_amount v = emptyAmount ∨
    (∃ ab kexp b, parse_amount v = mkAbbrevResult ab kexp b) ∨
    (∃ q, parse_amount v = mkParenResult q) ∨
    (∃ q, parse_amount v = mkTrailResult q) ∨
    parse_amount v = unrecognizedSpecial ∨
    (∃ c q, parse_amount v = mkStandardResult c q) ∨
    parse_amount v = invalidNumeric := by
  cases v with
  | none => exact Or.inl rfl
  | some sv =>
    by_cases he : sv = ""
    · exact Or.inl (by simp [parse_amount, he])
    · have hpa : parse_amount (some sv) = parse_amount_str (trimWs sv.toList) := by
        simp [parse_amount, he]
      rw [hpa]
      unfold parse_amount_str
      by_cases hs : is_special_format (trimWs sv.toList) = true
      · rw [if_pos hs]
        rcases handle_special_shape (trimWs sv.toList) with h | h | h | h
        exacts [Or.inr <| Or.inl h,
          Or.inr <| Or.inr <| Or.inl h,
          Or.inr <| Or.inr <| Or.inr <| Or.inl h,
          Or.inr <| Or.inr <| Or.inr <| Or.inr <| Or.inl h]
      · rw [if_neg hs]
        rcases parse_normalized_shape (normalize_currency (trimWs sv.toList))
          with h | h
        exacts [Or.inr <| Or.inr <| Or.inr <| Or.inr <| Or.inr <| Or.inl h,
          Or.inr <| Or.inr <| Or.inr <| Or.inr <| Or.inr <| Or.inr h]

/-- The absolute value of a decimal number has non-negative rational value. -/
theorem Dec.toRat_abs_nonneg (d : Dec) : 0 ≤ d.abs.toRat := by
  unfold Dec.toRat Dec.abs
  dsimp only
  split
  · positivity
  · positivity

/-! ## C1 — sign invariant (corrected)

The claim fails on the abbreviated-suffix path: `handle_special_formats`
multiplies the parsed base by the multiplier without taking an absolute
value and hard-codes `is_negative = False`, so `parse_amount("-1.5M")`
succeeds with `parsed_value = -1500000` and `is_negative = false`.  On every
other success path the source applies `abs(...)`, so the invariant holds
whenever the result does not come from the abbreviated rule. -/

/-- C1 (counterexample): `parse_amount("-1.5M")` succeeds (no error), yet its
`parsed_value` is the negative number `-1500000` while `is_negative` is
`false` — the sign is in the numeric value, not in the flag. -/
theorem C1_counterexample :
    (parse_amount (some "-1.5M")).error = none ∧
    ((parse_amount (some "-1.5M")).parsed_value.map Dec.toRat) =
      some (-1500000 : ℚ) ∧
    (parse_amount (some "-1.5M")).is_negative = false ∧
    (-1500000 : ℚ) < 0 := by
  have hv : (parse_amount (some "-1.5M")).parsed_value = some ⟨-15, 5⟩ := by
    decide
  refine ⟨by decide, ?_, by decide, by norm_num⟩
  rw [hv]
  show some (Dec.toRat ⟨-15, 5⟩) = some (-1500000 : ℚ)
  norm_num [Dec.toRat, Int.toNat]

/-- C1 (amended): for every input on which `parse_amount` succeeds through
any rule other than the abbreviated-suffix rule (i.e. the result carries no
`abbreviation` key), the returned `parsed_value` is a non-negative number;
the sign is carried in `is_negative`.  The abbreviated-suffix path is the
sole exception, as witnessed by `C1_counterexample`. -/
theorem C1_sign_invariant (v : Option String)
    (hok : (parse_amount v).error = none)
    (hab : (parse_amount v).abbreviation = none) :
    ∃ q, (parse_amount v).parsed_value = some q ∧ 0 ≤ q.toRat := by
  rcases parse_amount_shape v with h | ⟨ab, kexp, b, h⟩ | ⟨q, h⟩ | ⟨q, h⟩ |
    h | ⟨c, q, h⟩ | h
  · rw [h] at hok; exact absurd hok (by simp [emptyAmount])
  · rw [h] at hab; exact absurd hab (by simp [mkAbbrevResult])
  · exact ⟨q.abs, by rw [h]; exact rfl, Dec.toRat_abs_nonneg q⟩
  · exact ⟨q.abs, by rw [h]; exact rfl, Dec.toRat_abs_nonneg q⟩
  · rw [h] at hok; exact absurd hok (by simp [unrecognizedSpecial])
  · exact ⟨q.abs, by rw [h]; exact rfl, Dec.toRat_abs_nonneg q⟩
  · rw [h] at hok; exact absurd hok (by simp [invalidNumeric])

/-- C1 (witness): `C1_sign_invariant` applied to the concrete successful
non-abbreviated input `"(2,500.00)"`. -/
theorem C1_witness :
    (parse_amount (some "(2,500.00)")).error = none ∧
    (parse_amount (some "(2,500.00)")).abbreviation = none ∧
    ∃ q, (parse_amount (some "(2,500.00)")).parsed_value = some q ∧
      0 ≤ q.toRat :=
  ⟨by decide, by decide,
    C1_sign_invariant (some "(2,500.00)") (by decide) (by decide)⟩

/-! ## C7 — totality (confirmed)

Every call of `parse_amount` / `parse_date` returns a structured outcome:
either a success dictionary (a parsed value and no `error` key) or an error
dictionary (an `error` message and a `None` parsed value).  In the source
this corresponds to the `try/except` structure: every fallible operation
(`float`, `int`, `datetime`) is wrapped, and each branch returns a dict. -/

def amountOutcome (r : AmountResult) : Prop :=
  (r.error = none ∧ ∃ q, r.parsed_value = some q) ∨
  (r.parsed_value = none ∧ ∃ msg, r.error = some msg)

def dateOutcome (r : DateResult) : Prop :=
  (r.error = none ∧ ∃ ymd, r.parsed_value = some ymd) ∨
  (r.parsed_value = none ∧ ∃ msg, r.error = some msg)

theorem mkPatternResult_outcome (name : String) (t : List Char)
    (r : Option (Int × Nat × Nat)) : dateOutcome (mkPatternResult name t r) := by
  cases r with
  | some ymd => exact Or.inl ⟨rfl, ymd, rfl⟩
  | none => exact Or.inr ⟨rfl, _, rfl⟩

theorem date_patterns_loop_outcome {t : List Char} {r : DateResult}
    (h : date_patterns_loop t = some r) : dateOutcome r := by
  unfold date_patterns_loop at h
  cases h1 : match_slash_date t with
  | some g =>
    obtain ⟨g1, g2, g3⟩ := g
    simp only [h1] at h
    exact (Option.some_inj.mp h) ▸ mkPatternResult_outcome _ _ _
  | none =>
    simp only [h1] at h
    cases h3 : match_ymd t with
    | some g =>
      obtain ⟨g1, g2, g3⟩ := g
      simp only [h3] at h
      exact (Option.some_inj.mp h) ▸ mkPatternResult_outcome _ _ _
    | none =>
      simp only [h3] at h
      cases h4 : match_dmony t with
      | some g =>
        obtain ⟨g1, g2, g3⟩ := g
        simp only [h4] at h
        exact (Option.some_inj.mp h) ▸ mkPatternResult_outcome _ _ _
      | none =>
        simp only [h4] at h
        cases h5 : match_quarter_long t with
        | some g =>
          simp only [h5] at h
          exact (Option.some_inj.mp h) ▸ Or.inr ⟨rfl, _, rfl⟩
        | none =>
          simp only [h5] at h
          cases h6 : match_month_year t with
          | some g =>
            simp only [h6] at h
            exact (Option.some_inj.mp h) ▸ Or.inr ⟨rfl, _, rfl⟩
          | none =>
            simp only [h6] at h
            exact absurd h (by simp)

theorem parse_quarter_format_outcome (t : List Char) :
    dateOutcome (parse_quarter_format t) := by
  unfold parse_quarter_format
  cases h1 : match_quarter_long t with
  | some g =>
    obtain ⟨q, y⟩ := g
    dsimp only
    cases h2 : mkDatetime (y : Int) ((q - 1) * 3 + 1) 1 with
    | some ymd => exact Or.inl ⟨rfl, ymd, rfl⟩
    | none => exact Or.inr ⟨rfl, _, rfl⟩
  | none =>
    dsimp only
    cases h2 : match_quarter_short t with
    | some g =>
      obtain ⟨q, yy⟩ := g
      dsimp only
      cases h3 : mkDatetime (2000 + (yy : Int)) ((q - 1) * 3 + 1) 1 with
      | some ymd => exact Or.inl ⟨rfl, ymd, rfl⟩
      | none => exact Or.inr ⟨rfl, _, rfl⟩
    | none => exact Or.inr ⟨rfl, _, rfl⟩

theorem parse_month_year_format_outcome (t : List Char) :
    dateOutcome (parse_month_year_format t) := by
  unfold parse_month_year_format
  cases h1 : wordsSplit t with
  | nil => exact Or.inr ⟨rfl, _, rfl⟩
  | cons m rest =>
    cases rest with
    | nil => exact Or.inr ⟨rfl, _, rfl⟩
    | cons ystr rest2 =>
      dsimp only
      cases h2 : pyInt? ystr with
      | some y =>
        dsimp only
        cases h3 : mkDatetime y (month_name_to_num m) 1 with
        | some ymd => exact Or.inl ⟨rfl, ymd, rfl⟩
        | none => exact Or.inr ⟨rfl, _, rfl⟩
      | none => exact Or.inr ⟨rfl, _, rfl⟩

theorem parse_excel_serial_date_outcome (t : List Char) :
    dateOutcome (parse_excel_serial_date t) := by
  unfold parse_excel_serial_date
  cases h : pyFloat? t with
  | some q => exact Or.inl ⟨rfl, _, rfl⟩
  | none => exact Or.inr ⟨rfl, _, rfl⟩

theorem parse_date_core_outcome (dres : Option (Int × Nat × Nat))
    (t : List Char) : dateOutcome (parse_date_core dres t) := by
  unfold parse_date_core
  by_cases hs : is_excel_serial_date t = true
  · rw [if_pos hs]
    exact parse_excel_serial_date_outcome t
  · rw [if_neg hs]
    cases dres with
    | some ymd => exact Or.inl ⟨rfl, ymd, rfl⟩
    | none =>
      dsimp only
      cases hL : date_patterns_loop t with
      | some r =>
        dsimp only
        exact date_patterns_loop_outcome hL
      | none =>
        dsimp only
        by_cases hq : (t.any fun c => decide (c.toUpper = 'Q')) = true
        · rw [if_pos hq]
          exact parse_quarter_format_outcome t
        · rw [if_neg hq]
          by_cases hm : (match_month_year t).isSome = true
          · rw [if_pos hm]
            exact parse_month_year_format_outcome t
          · rw [if_neg hm]
            exact Or.inr ⟨rfl, _, rfl⟩

/-- C7: totality — for every input (null, empty, or an arbitrary string) and
every behaviour of the external free-form date parser, `parse_amount` and
`parse_date` return a structured outcome: a success dictionary (value
present, no error) or an error dictionary (no value, error message present);
no exception escapes the public boundary. -/
theorem C7_totality :
    (∀ v : Option String, amountOutcome (parse_amount v)) ∧
    (∀ (du : List Char → Option (Int × Nat × Nat)) (v : Option String),
      dateOutcome (parse_date du v)) := by
  constructor
  · intro v
    rcases parse_amount_shape v with h | ⟨ab, kexp, b, h⟩ | ⟨q, h⟩ | ⟨q, h⟩ |
      h | ⟨c, q, h⟩ | h <;> rw [h]
    · exact Or.inr ⟨rfl, _, rfl⟩
    · exact Or.inl ⟨rfl, _, rfl⟩
    · exact Or.inl ⟨rfl, _, rfl⟩
    · exact Or.inl ⟨rfl, _, rfl⟩
    · exact Or.inr ⟨rfl, _, rfl⟩
    · exact Or.inl ⟨rfl, _, rfl⟩
    · exact Or.inr ⟨rfl, _, rfl⟩
  · intro du v
    cases v with
    | none => exact Or.inr ⟨rfl, _, rfl⟩
    | some sv =>
      by_cases he : sv = ""
      · have h : parse_date du (some sv) = emptyDate := by
          simp [parse_date, he]
        rw [h]; exact Or.inr ⟨rfl, _, rfl⟩
      · have h : parse_date du (some sv) =
            parse_date_core (du (trimWs sv.toList)) (trimWs sv.toList) := by
          simp [parse_date, he]
        rw [h]; exact parse_date_core_outcome _ _

/-! ## C5 — EmptyValue on blank input (corrected)

The source tests `value == ''` before calling `.strip()`, so only the null
input and the exactly-empty string produce the `Empty value` error; a
whitespace-only string such as `"   "` slips past the test, is stripped to
`""`, and then fails with `Invalid numeric format` (amounts) or
`Unrecognized date format` (dates). -/

/-- C5 (counterexample): on the whitespace-only input `"   "` the parsers do
not return the EmptyValue outcome: `parse_amount` reports an invalid numeric
format and `parse_date` an unrecognized date format. -/
theorem C5_counterexample :
    (parse_amount (some "   ")).error = some "Invalid numeric format" ∧
    (parse_date (fun _ => none) (some "   ")).error =
      some "Unrecognized date format" ∧
    (parse_amount (some "   ")).error ≠ some "Empty value" ∧
    (parse_date (fun _ => none) (some "   ")).error ≠ some "Empty value" := by
  refine ⟨by decide, by decide, by decide, by decide⟩

/-- C5 (amended): for every input that is null or the exactly-empty string
(before trimming), `parse_amount` and `parse_date` return the EmptyValue
error outcome and nothing else; whitespace-only strings are not covered by
this rule and fall through to the other error kinds
(see `C5_counterexample`). -/
theorem C5_empty_value (du : List Char → Option (Int × Nat × Nat))
    (v : Option String) (h : v = none ∨ v = some "") :
    parse_amount v = emptyAmount ∧ parse_date du v = emptyDate := by
  rcases h with h | h <;> subst h
  · exact ⟨rfl, rfl⟩
  · exact ⟨rfl, rfl⟩

/-- C5 (witness): `C5_empty_value` at the empty string. -/
theorem C5_witness :
    ((some "" : Option String) = none ∨ (some "" : Option String) = some "") ∧
    parse_amount (some "") = emptyAmount ∧
    parse_date (fun _ => none) (some "") = emptyDate :=
  ⟨Or.inr rfl, C5_empty_value (fun _ => none) (some "") (Or.inr rfl)⟩

/-! ## C2 — Excel serial scenario (corrected)

`parse_date("44927")` does take the Excel-serial path, but the claimed
calendar date is wrong: the source computes
`datetime(1900, 1, 1) + Timedelta(days=(44927 - 1) - 1)`, i.e. ordinal
693596 + 44925 = 738521, which is 2023-01-01, not 2022-12-31.  (This agrees
with the actual Excel convention, where serial 44927 is 2023-01-01.) -/

/-- C2 (counterexample): `parse_date("44927")` succeeds with format tag
`excel_serial` but the resulting calendar date is not 2022-12-31 — it is
2023-01-01. -/
theorem C2_counterexample :
    (parse_date (fun _ => none) (some "44927")).format = some "excel_serial" ∧
    (parse_date (fun _ => none) (some "44927")).error = none ∧
    ¬((parse_date (fun _ => none) (some "44927")).year = some 2022 ∧
      (parse_date (fun _ => none) (some "44927")).month = some 12 ∧
      (parse_date (fun _ => none) (some "44927")).day = some 31) ∧
    (parse_date (fun _ => none) (some "44927")).year = some 2023 ∧
    (parse_date (fun _ => none) (some "44927")).month = some 1 ∧
    (parse_date (fun _ => none) (some "44927")).day = some 1 := by
  refine ⟨by decide, by decide, by decide, by decide, by decide, by decide⟩

/-- C2 (amended): `parse_date("44927")` succeeds with format tag
`excel_serial`; after the documented correction (serial values above 59 are
decremented, giving adjusted serial 44926) the conversion from the
1899-12-31-plus-one-day epoch yields the calendar date 2023-01-01 —
regardless of the behaviour of the external free-form parser, which is never
consulted on this input. -/
theorem C2_excel_serial (du : List Char → Option (Int × Nat × Nat)) :
    parse_date du (some "44927") =
      { parsed_value := some (2023, 1, 1), format := some "excel_serial",
        error := none, year := some 2023, month := some 1, day := some 1,
        quarter := none, serial_date := some ⟨44926, 0⟩, month_name := none,
        original_value := none } := by
  rfl

/-! ## C3 — quarter scenario (code bug)

`parse_date("Q4 2023")` never reaches `_parse_quarter_format`: the
`'Quarter'` entry of `date_patterns` matches first inside the pattern loop,
and `_parse_date_pattern` has no branch for it, so the call returns the
error dictionary `{'error': 'Unsupported pattern: Quarter',
'format': 'Quarter'}` instead of the documented quarter success.  The
dedicated quarter handler (which would return exactly the claimed
`{year: 2023, month: 10, day: 1, quarter: 4, format: "quarter"}`) is dead
code for such inputs, contradicting its own docstring
(`"Parse quarter format (Q1 2024, Q1-24)"`). -/

/-- C3: evaluating the code on the failing input `"Q4 2023"` — under the
(true) assumption that the external free-form parser rejects the string,
`parse_date` returns the `Unsupported pattern: Quarter` error dictionary,
not the quarter success the claim describes. -/
theorem C3_quarter_unsupported (du : List Char → Option (Int × Nat × Nat))
    (h : du ("Q4 2023".toList) = none) :
    parse_date du (some "Q4 2023") = unsupported_pattern "Quarter" := by
  have e : parse_date du (some "Q4 2023") =
      parse_date_core (du ("Q4 2023".toList)) ("Q4 2023".toList) := rfl
  rw [e, h]
  rfl

/-- C3 (witness): `C3_quarter_unsupported` at the concrete parser that
rejects every string. -/
theorem C3_witness :
    ((fun _ => none : List Char → Option (Int × Nat × Nat))
        ("Q4 2023".toList) = none) ∧
    parse_date (fun _ => none) (some "Q4 2023") =
      unsupported_pattern "Quarter" :=
  ⟨rfl, C3_quarter_unsupported (fun _ => none) rfl⟩

/-! ## C9 — empty-sample classification (confirmed) -/

/-- C9: for every sample that is empty after discarding null values,
`analyze_column` returns type `unknown` with confidence 0 and all three
scores equal to 0 (and no `format_info` key); it always returns this result
rather than failing. -/
theorem C9_empty_sample (data : List (Option String))
    (h : data.filterMap id = []) :
    analyze_column data =
      { type := "unknown", confidence := 0,
        scores := { string := 0, number := 0, date := 0 },
        format_info := none } := by
  simp [analyze_column, h]

/-- C9 (witness): `C9_empty_sample` on the all-null sample `[None, None]`. -/
theorem C9_witness :
    ([none, none] : List (Option String)).filterMap id = [] ∧
    analyze_column [none, none] =
      { type := "unknown", confidence := 0,
        scores := { string := 0, number := 0, date := 0 },
        format_info := none } :=
  ⟨rfl, C9_empty_sample [none, none] rfl⟩

/-! ## C6 — decisive collapse (confirmed) -/

theorem pyMax_date : pyMaxScores { string := 0, number := 0, date := 1 } =
    ("date", 1) := by
  norm_num [pyMaxScores]

theorem pyMax_number : pyMaxScores { string := 0, number := 1, date := 0 } =
    ("number", 1) := by
  norm_num [pyMaxScores]

theorem pyMax_string : pyMaxScores { string := 1, number := 0, date := 0 } =
    ("string", 1) := by
  norm_num [pyMaxScores]

/-- C6: for every non-empty sample, `analyze_column` collapses the scores to
exactly one 1.0 and two 0.0 — date wins if the raw date score exceeds 0.5,
else number wins if the raw number score exceeds 0.5, else string wins — the
returned label is the argmax of the collapsed scores (computed by the same
first-maximum rule `max(scores, key=scores.get)` as the source), the
confidence equals that maximum, and hence the confidence is exactly 0.0
or 1.0 (in fact always 1.0 here). -/
theorem C6_decisive_collapse (data : List (Option String))
    (h : data.filterMap id ≠ []) :
    ((detect_date_format_frac (data.filterMap id) > 1/2 ∧
      (analyze_column data).scores = { string := 0, number := 0, date := 1 } ∧
      (analyze_column data).type = "date") ∨
     (¬(detect_date_format_frac (data.filterMap id) > 1/2) ∧
      detect_number_format_frac (data.filterMap id) > 1/2 ∧
      (analyze_column data).scores = { string := 0, number := 1, date := 0 } ∧
      (analyze_column data).type = "number") ∨
     (¬(detect_date_format_frac (data.filterMap id) > 1/2) ∧
      ¬(detect_number_format_frac (data.filterMap id) > 1/2) ∧
      (analyze_column data).scores = { string := 1, number := 0, date := 0 } ∧
      (analyze_column data).type = "string")) ∧
    (analyze_column data).type = (pyMaxScores (analyze_column data).scores).1 ∧
    (analyze_column data).confidence =
      (pyMaxScores (analyze_column data).scores).2 ∧
    (analyze_column data).confidence = 1 ∧
    ((analyze_column data).confidence = 0 ∨
      (analyze_column data).confidence = 1) := by
  by_cases hd : detect_date_format_frac (data.filterMap id) > 1/2
  · have ha : analyze_column data =
        { type := "date", confidence := 1,
          scores := { string := 0, number := 0, date := 1 },
          format_info :=
            some (get_format_info (data.filterMap id) "date") } := by
      simp only [analyze_column]
      rw [if_neg h]
      rw [if_pos hd, pyMax_date]
    rw [ha]
    exact ⟨Or.inl ⟨hd, rfl, rfl⟩, by rw [pyMax_date], by rw [pyMax_date],
      rfl, Or.inr rfl⟩
  · by_cases hn : detect_number_format_frac (data.filterMap id) > 1/2
    · have ha : analyze_column data =
          { type := "number", confidence := 1,
            scores := { string := 0, number := 1, date := 0 },
            format_info :=
              some (get_format_info (data.filterMap id) "number") } := by
        simp only [analyze_column]
        rw [if_neg h]
        rw [if_neg hd, if_pos hn, pyMax_number]
      rw [ha]
      exact ⟨Or.inr (Or.inl ⟨hd, hn, rfl, rfl⟩), by rw [pyMax_number],
        by rw [pyMax_number], rfl, Or.inr rfl⟩
    · have ha : analyze_column data =
          { type := "string", confidence := 1,
            scores := { string := 1, number := 0, date := 0 },
            format_info :=
              some (get_format_info (data.filterMap id) "string") } := by
        simp only [analyze_column]
        rw [if_neg h]
        rw [if_neg hd, if_neg hn, pyMax_string]
      rw [ha]
      exact ⟨Or.inr (Or.inr ⟨hd, hn, rfl, rfl⟩), by rw [pyMax_string],
        by rw [pyMax_string], rfl, Or.inr rfl⟩

/-- C6 (witness): `C6_decisive_collapse` on the concrete all-dates sample of
the specification scenario. -/
theorem C6_witness :
    ([some "2023-01-01", some "2023-01-02", some "2023-01-03"] :
        List (Option String)).filterMap id ≠ [] ∧
    (((detect_date_format_frac
        (([some "2023-01-01", some "2023-01-02", some "2023-01-03"] :
          List (Option String)).filterMap id) > 1/2 ∧
      (analyze_column [some "2023-01-01", some "2023-01-02",
        some "2023-01-03"]).scores = { string := 0, number := 0, date := 1 } ∧
      (analyze_column [some "2023-01-01", some "2023-01-02",
        some "2023-01-03"]).type = "date") ∨
     (¬(detect_date_format_frac
        (([some "2023-01-01", some "2023-01-02", some "2023-01-03"] :
          List (Option String)).filterMap id) > 1/2) ∧
      detect_number_format_frac
        (([some "2023-01-01", some "2023-01-02", some "2023-01-03"] :
          List (Option String)).filterMap id) > 1/2 ∧
      (analyze_column [some "2023-01-01", some "2023-01-02",
        some "2023-01-03"]).scores = { string := 0, number := 1, date := 0 } ∧
      (analyze_column [some "2023-01-01", some "2023-01-02",
        some "2023-01-03"]).type = "number") ∨
     (¬(detect_date_format_frac
        (([some "2023-01-01", some "2023-01-02", some "2023-01-03"] :
          List (Option String)).filterMap id) > 1/2) ∧
      ¬(detect_number_format_frac
        (([some "2023-01-01", some "2023-01-02", some "2023-01-03"] :
          List (Option String)).filterMap id) > 1/2) ∧
      (analyze_column [some "2023-01-01", some "2023-01-02",
        some "2023-01-03"]).scores = { string := 1, number := 0, date := 0 } ∧
      (analyze_column [some "2023-01-01", some "2023-01-02",
        some "2023-01-03"]).type = "string")) ∧
    (analyze_column [some "2023-01-01", some "2023-01-02",
      some "2023-01-03"]).type =
      (pyMaxScores (analyze_column [some "2023-01-01", some "2023-01-02",
        some "2023-01-03"]).scores).1 ∧
    (analyze_column [some "2023-01-01", some "2023-01-02",
      some "2023-01-03"]).confidence =
      (pyMaxScores (analyze_column [some "2023-01-01", some "2023-01-02",
        some "2023-01-03"]).scores).2 ∧
    (analyze_column [some "2023-01-01", some "2023-01-02",
      some "2023-01-03"]).confidence = 1 ∧
    ((analyze_column [some "2023-01-01", some "2023-01-02",
      some "2023-01-03"]).confidence = 0 ∨
     (analyze_column [some "2023-01-01", some "2023-01-02",
      some "2023-01-03"]).confidence = 1)) :=
  ⟨by decide,
    C6_decisive_collapse
      [some "2023-01-01", some "2023-01-02", some "2023-01-03"] (by decide)⟩

/-! ## C4 — no double counting in classification (corrected)

`_detect_number_format` skips a value only when it matches one of the date
grammars; a value counted toward `date_score` through the serial-range test
(an integer in `[1000, 73050]`, e.g. `"1234"`) is *also* counted toward
`number_score`, so `date_score + number_score` can reach 2.  The exclusion
the claim describes does hold for the grammar-matching part of the date
score. -/

theorem countP_disjoint_le {α : Type} (p q : α → Bool)
    (hpq : ∀ v, q v = true → p v = false) :
    ∀ l : List α, l.countP p + l.countP q ≤ l.length := by
  intro l
  induction l with
  | nil => simp
  | cons a t ih =>
    rw [List.countP_cons, List.countP_cons, List.length_cons]
    have hone : (if p a then 1 else 0) + (if q a then 1 else 0) ≤ 1 := by
      by_cases hq : q a = true
      · simp [hpq a hq, hq]
      · simp [hq]
        split <;> omega
    omega

/-- C4 (counterexample): on the one-element sample `["1234"]` the value is
counted toward the date score (serial-range test) and also toward the number
score, so `date_score + number_score = 2 > 1`, refuting the claimed bound. -/
theorem C4_counterexample :
    detect_date_format_frac ["1234"] + detect_number_format_frac ["1234"] =
      2 ∧
    ¬(detect_date_format_frac ["1234"] + detect_number_format_frac ["1234"] ≤
      1) := by
  have h1 : List.countP dateIndicator ["1234"] = 1 := by decide
  have h2 : List.countP numberIndicator ["1234"] = 1 := by decide
  have he : detect_date_format_frac ["1234"] +
      detect_number_format_frac ["1234"] = 2 := by
    norm_num [detect_date_format_frac, detect_number_format_frac, h1, h2]
  exact ⟨he, by rw [he]; norm_num⟩

/-- C4 (amended): a value counted toward `date_score` by matching a date
grammar is excluded from `number_score` — for every sample the fraction of
grammar-matching values plus `number_score` is at most 1.  Values counted
only through the serial-range test `[1000, 73050]` are *not* excluded, and
`date_score + number_score` can exceed 1 (see `C4_counterexample`). -/
theorem C4_no_double_count :
    (∀ v : String, matchesAnyTDPattern (trimWs v.toList) = true →
      numberIndicator v = false) ∧
    (∀ l : List String, l ≠ [] →
      (l.countP (fun v => matchesAnyTDPattern (trimWs v.toList)) : ℚ) /
          (l.length : ℚ) + detect_number_format_frac l ≤ 1) := by
  have part1 : ∀ v : String, matchesAnyTDPattern (trimWs v.toList) = true →
      numberIndicator v = false := by
    intro v hv
    simp only [numberIndicator]
    rw [if_pos hv]
  refine ⟨part1, ?_⟩
  intro l hl
  have hlen : l.length ≠ 0 := fun h0 => hl (List.length_eq_zero.mp h0)
  have hdisj : ∀ v, numberIndicator v = true →
      (fun v => matchesAnyTDPattern (trimWs v.toList)) v = false := by
    intro v hnum
    by_contra hpat
    rw [Bool.not_eq_false] at hpat
    rw [part1 v hpat] at hnum
    exact absurd hnum (by simp)
  have hc := countP_disjoint_le _ _ hdisj l
  unfold detect_number_format_frac
  rw [if_neg hlen]
  rw [div_add_div_same, div_le_one (by positivity)]
  exact_mod_cast hc

/-- C4 (witness): `C4_no_double_count` applied to the grammar-matching value
`"1/2/2023"` and to the singleton sample containing it. -/
theorem C4_witness :
    (matchesAnyTDPattern (trimWs ("1/2/2023".toList)) = true ∧
      numberIndicator "1/2/2023" = false) ∧
    ((["1/2/2023"] : List String) ≠ [] ∧
      ((["1/2/2023"] : List String).countP
          (fun v => matchesAnyTDPattern (trimWs v.toList)) : ℚ) /
          ((["1/2/2023"] : List String).length : ℚ) +
        detect_number_format_frac ["1/2/2023"] ≤ 1) :=
  ⟨⟨by decide, C4_no_double_count.1 "1/2/2023" (by decide)⟩,
    ⟨by decide, C4_no_double_count.2 ["1/2/2023"] (by decide)⟩⟩

theorem boolFalseOfNeTrue {b : Bool} (h : ¬b = true) : b = false := by
  cases b
  · rfl
  · exact absurd rfl h

/-! ## C10 — abbreviated-suffix dead end (confirmed)

If the (stripped) input ends in K/M/B/T but the text before the suffix does
not parse as a bare float, `handle_special_formats` exhausts all of its
rules (the parenthetical and trailing-negative rules cannot apply to a
string whose last character is a letter) and returns the
`Unrecognized special format` error; the standard normalize-and-parse path
is never attempted, because `parse_amount` dispatches on
`_is_special_format` first. -/

/-- C10: for every input whose stripped text ends in one of K/M/B/T
(case-insensitively), whose numeric part (`value[:-1]`, or the whole value
for one-character strings) does not parse as a float, that is not wrapped in
parentheses and does not end in `-`, `parse_amount` returns the
`Unrecognized special format` error dictionary — in particular the standard
path's `standard` format tag or currency extraction never appear. -/
theorem C10_abbrev_dead_end (sv : String)
    (h1 : upperEndsWith (trimWs sv.toList) 'K' = true ∨
          upperEndsWith (trimWs sv.toList) 'M' = true ∨
          upperEndsWith (trimWs sv.toList) 'B' = true ∨
          upperEndsWith (trimWs sv.toList) 'T' = true)
    (h2 : pyFloat? (numericPart (trimWs sv.toList)) = none)
    (h3 : ¬(startsWithChar (trimWs sv.toList) '(' = true ∧
            endsWithChar (trimWs sv.toList) ')' = true))
    (h4 : endsWithChar (trimWs sv.toList) '-' = false) :
    parse_amount (some sv) = unrecognizedSpecial := by
  by_cases he : sv = ""
  · exfalso
    subst he
    rcases h1 with h | h | h | h <;> revert h <;> decide
  · have e : parse_amount (some sv) = parse_amount_str (trimWs sv.toList) := by
      simp [parse_amount, he]
    rw [e]
    have hspec : is_special_format (trimWs sv.toList) = true := by
      unfold is_special_format
      rcases h1 with h | h | h | h <;> rw [h] <;> simp
    unfold parse_amount_str
    rw [if_pos hspec]
    have hab : ∀ ab kexp, tryAbbrev1 (trimWs sv.toList) ab kexp = none := by
      intro ab kexp
      unfold tryAbbrev1
      split
      · rw [h2]; rfl
      · rfl
    have habbrev : tryAbbrev (trimWs sv.toList) = none := by
      unfold tryAbbrev
      rw [hab 'K' 3, hab 'M' 6, hab 'B' 9, hab 'T' 12]
    have hcond : (startsWithChar (trimWs sv.toList) '(' &&
        endsWithChar (trimWs sv.toList) ')') = false := by
      by_cases hS : startsWithChar (trimWs sv.toList) '(' = true
      · by_cases hE : endsWithChar (trimWs sv.toList) ')' = true
        · exact absurd ⟨hS, hE⟩ h3
        · rw [hS, boolFalseOfNeTrue hE, Bool.and_false]
      · rw [boolFalseOfNeTrue hS, Bool.false_and]
    have hpar : tryParens (trimWs sv.toList) = none := by
      unfold tryParens
      simp only [hcond]
      simp
    have htrail : tryTrailing (trimWs sv.toList) = none := by
      unfold tryTrailing
      simp only [h4]
      simp
    unfold handle_special_formats
    simp only [habbrev, hpar, htrail]

/-- C10 (witness): `C10_abbrev_dead_end` at the concrete input `"$2K"`
(currency symbol combined with an abbreviation suffix). -/
theorem C10_witness :
    (upperEndsWith (trimWs ("$2K".toList)) 'K' = true ∨
     upperEndsWith (trimWs ("$2K".toList)) 'M' = true ∨
     upperEndsWith (trimWs ("$2K".toList)) 'B' = true ∨
     upperEndsWith (trimWs ("$2K".toList)) 'T' = true) ∧
    pyFloat? (numericPart (trimWs ("$2K".toList))) = none ∧
    ¬(startsWithChar (trimWs ("$2K".toList)) '(' = true ∧
      endsWithChar (trimWs ("$2K".toList)) ')' = true) ∧
    endsWithChar (trimWs ("$2K".toList)) '-' = false ∧
    parse_amount (some "$2K") = unrecognizedSpecial :=
  ⟨Or.inl (by decide), by decide, by decide, by decide,
    C10_abbrev_dead_end "$2K" (Or.inl (by decide)) (by decide) (by decide)
      (by decide)⟩

/-! ## C8 — European-separator detection boundary (corrected)

Support lemmas about digit strings, then the counterexample and the amended
universal statement. -/

theorem digit_mem (c : Char) (h : isDigitChar c = true) :
    c = '0' ∨ c = '1' ∨ c = '2' ∨ c = '3' ∨ c = '4' ∨ c = '5' ∨ c = '6' ∨
    c = '7' ∨ c = '8' ∨ c = '9' := by
  simpa [isDigitChar] using h

/-- Facts about an ASCII digit character needed along the standard parsing
path. -/
theorem digit_facts (c : Char) (h : isDigitChar c = true) :
    c.toUpper ≠ 'K' ∧ c.toUpper ≠ 'M' ∧ c.toUpper ≠ 'B' ∧ c.toUpper ≠ 'T' ∧
    c ≠ ')' ∧ c ≠ '-' ∧ c ≠ '(' ∧ isWsChar c = false ∧ isDU c = true ∧
    isCurrencySym c = false ∧ c ≠ ',' ∧ c ≠ '+' ∧ c ≠ '.' ∧ c ≠ '_' ∧
    isDigitComma c = true := by
  rcases digit_mem c h with h' | h' | h' | h' | h' | h' | h' | h' | h' | h' <;>
    subst h' <;> exact ⟨by decide, by decide, by decide, by decide, by decide,
      by decide, by decide, by decide, by decide, by decide, by decide,
      by decide, by decide, by decide, by decide⟩

theorem dropWhileWs_eq_self {l : List Char}
    (h : ∀ c ∈ l, isWsChar c = false) : l.dropWhile isWsChar = l := by
  cases l with
  | nil => rfl
  | cons c t =>
    exact List.dropWhile_cons_of_neg
      (by simp [h c (List.mem_cons_self c t)])

theorem trimWs_eq_self {l : List Char} (h : ∀ c ∈ l, isWsChar c = false) :
    trimWs l = l := by
  unfold trimWs
  rw [dropWhileWs_eq_self h,
    dropWhileWs_eq_self (fun c hc => h c (List.mem_reverse.mp hc)),
    List.reverse_reverse]

theorem takeWhile_all {p : Char → Bool} {l : List Char}
    (h : ∀ c ∈ l, p c = true) : l.takeWhile p = l := by
  induction l with
  | nil => rfl
  | cons c t ih =>
    rw [List.takeWhile_cons_of_pos (h c (List.mem_cons_self c t)),
      ih (fun x hx => h x (List.mem_cons_of_mem c hx))]

theorem dropWhile_all {p : Char → Bool} {l : List Char}
    (h : ∀ c ∈ l, p c = true) : l.dropWhile p = [] := by
  induction l with
  | nil => rfl
  | cons c t ih =>
    rw [List.dropWhile_cons_of_pos (h c (List.mem_cons_self c t)),
      ih (fun x hx => h x (List.mem_cons_of_mem c hx))]

theorem noDoubleUS_no_underscore {l : List Char}
    (h : ∀ c ∈ l, c ≠ '_') : noDoubleUS l = true := by
  induction l with
  | nil => rfl
  | cons a t ih =>
    cases t with
    | nil => rfl
    | cons b rest =>
      simp only [noDoubleUS]
      rw [decide_eq_false (h a (List.mem_cons_self a _)), Bool.false_and,
        ih (fun x hx => h x (List.mem_cons_of_mem a hx))]
      rfl

theorem validRun_all_digits {l : List Char} (hne : l ≠ [])
    (h : ∀ c ∈ l, isDigitChar c = true) : validRun l = true := by
  have hund : ∀ c ∈ l, c ≠ '_' := fun c hc => by
    obtain ⟨-, -, -, -, -, -, -, -, -, -, -, -, -, hu, -⟩ :=
      digit_facts c (h c hc)
    exact hu
  have hDU : ∀ c ∈ l, isDU c = true := fun c hc => by
    obtain ⟨-, -, -, -, -, -, -, -, hd, -⟩ := digit_facts c (h c hc)
    exact hd
  unfold validRun
  have h1 : l.isEmpty = false := by
    cases l
    · exact absurd rfl hne
    · rfl
  have h2 : l.all isDU = true := List.all_eq_true.mpr hDU
  have h3 : headNotUS l = true := by
    cases l with
    | nil => exact absurd rfl hne
    | cons c t =>
      simp only [headNotUS]
      rw [decide_eq_false (hund c (List.mem_cons_self c t))]
      rfl
  have h4 : headNotUS l.reverse = true := by
    cases hr : l.reverse with
    | nil =>
      exact absurd (by simpa using congrArg List.reverse hr) hne
    | cons c t =>
      have hcmem : c ∈ l := by
        have : c ∈ l.reverse := by rw [hr]; exact List.mem_cons_self c t
        exact List.mem_reverse.mp this
      simp only [headNotUS]
      rw [decide_eq_false (hund c hcmem)]
      rfl
  rw [h1, h2, h3, h4, noDoubleUS_no_underscore hund]
  rfl

theorem filter_no_underscore {l : List Char}
    (h : ∀ c ∈ l, isDigitChar c = true) :
    l.filter (fun c => c ≠ '_') = l :=
  List.filter_eq_self.mpr (fun c hc => by
    obtain ⟨-, -, -, -, -, -, -, -, -, -, -, -, -, hund, -⟩ :=
      digit_facts c (h c hc)
    simp [hund])

theorem pow10_pos (k : Nat) : 0 < pow10 k := by
  induction k with
  | zero => decide
  | succ n ih => unfold pow10; omega

theorem pow10_cast (k : Nat) : ((pow10 k : Int) : ℚ) = 10 ^ k := by
  induction k with
  | zero => decide
  | succ n ih =>
    unfold pow10
    push_cast
    rw [ih]
    ring

theorem threeDigits_short {b : List Char} (h : b.length ≤ 2) :
    threeDigits b = false := by
  cases b with
  | nil => rfl
  | cons x t =>
    cases t with
    | nil => rfl
    | cons y u =>
      cases u with
      | nil => rfl
      | cons z v => simp at h

theorem euroTail_no_dot {l : List Char}
    (h : ∀ c ∈ l, isDigitChar c = true) : euroTail l = false := by
  induction l with
  | nil => rfl
  | cons c r ih =>
    obtain ⟨-, -, -, -, -, -, -, -, -, -, -, -, hdot, -, -⟩ :=
      digit_facts c (h c (List.mem_cons_self c r))
    simp only [euroTail]
    rw [decide_eq_false hdot,
      ih (fun x hx => h x (List.mem_cons_of_mem c hx))]
    simp

theorem searchEuro_no_dot {l : List Char}
    (h : ∀ c ∈ l, isDigitChar c = true) : searchEuro l = false := by
  induction l with
  | nil => rfl
  | cons c r ih =>
    simp only [searchEuro, euroAt]
    rw [euroTail_no_dot (fun x hx => h x (List.mem_cons_of_mem c hx)),
      ih (fun x hx => h x (List.mem_cons_of_mem c hx))]
    simp

theorem euroTail_digits_dot {b : List Char}
    (hdb : ∀ c ∈ b, isDigitChar c = true) (hb2 : b.length ≤ 2) :
    ∀ a : List Char, (∀ c ∈ a, isDigitChar c = true) →
      euroTail (a ++ '.' :: b) = false := by
  intro a
  induction a with
  | nil =>
    intro _
    have h1 : threeDigits b = false := threeDigits_short hb2
    have h2 : euroTail b = false := euroTail_no_dot hdb
    simp only [List.nil_append, euroTail, h1, h2]
    decide
  | cons c t ih =>
    intro ha
    obtain ⟨-, -, -, -, -, -, -, -, -, -, -, -, hdot, -, -⟩ :=
      digit_facts c (ha c (List.mem_cons_self c t))
    have h2 : euroTail (t ++ '.' :: b) = false :=
      ih (fun x hx => ha x (List.mem_cons_of_mem c hx))
    simp only [List.cons_append, euroTail, List.append_eq, h2,
      decide_eq_false hdot]
    simp

theorem searchEuro_digits_dot {b : List Char}
    (hdb : ∀ c ∈ b, isDigitChar c = true) (hb2 : b.length ≤ 2) :
    ∀ a : List Char, (∀ c ∈ a, isDigitChar c = true) →
      searchEuro (a ++ '.' :: b) = false := by
  intro a
  induction a with
  | nil =>
    intro _
    have h2 : euroTail b = false := euroTail_no_dot hdb
    have h3 : searchEuro b = false := searchEuro_no_dot hdb
    simp only [List.nil_append, searchEuro, euroAt, h2, h3]
    decide
  | cons c t ih =>
    intro ha
    have h2 : euroTail (t ++ '.' :: b) = false :=
      euroTail_digits_dot hdb hb2 t
        (fun x hx => ha x (List.mem_cons_of_mem c hx))
    have h3 : searchEuro (t ++ '.' :: b) = false :=
      ih (fun x hx => ha x (List.mem_cons_of_mem c hx))
    simp only [List.cons_append, searchEuro, euroAt, List.append_eq, h2, h3]
    simp

theorem subThousand_no_comma : ∀ l : List Char,
    (∀ c ∈ l, c ≠ ',') → subThousand l = l := by
  intro l
  induction l with
  | nil => intro _; rfl
  | cons c cs ih =>
    intro h
    have htail : ∀ x ∈ cs, x ≠ ',' :=
      fun x hx => h x (List.mem_cons_of_mem c hx)
    cases cs with
    | nil => rfl
    | cons e0 t1 =>
      cases t1 with
      | nil => simp only [subThousand]
      | cons e1 t2 =>
        cases t2 with
        | nil => simp only [subThousand]
        | cons e2 t3 =>
          cases t3 with
          | nil => simp only [subThousand]
          | cons e3 rest =>
            simp only [subThousand]
            rw [decide_eq_false (htail e0 (List.mem_cons_self e0 _))]
            simp only [Bool.and_false, Bool.false_and]
            rw [if_neg (by simp : ¬(false = true)), ih htail]

theorem currencyOf_none {cs : List Char}
    (h : ∀ c ∈ cs, isCurrencySym c = false) : currencyOf cs = none := by
  have hany : ∀ sym : Char, isCurrencySym sym = true →
      cs.any (fun c => c = sym) = false := by
    intro sym hsym
    rw [List.any_eq_false]
    intro c hc
    simp only [decide_eq_true_eq]
    intro heq
    exact absurd (h c hc) (by rw [heq, hsym]; simp)
  unfold currencyOf currencySymbols
  rw [List.find?_cons_of_neg _ (by rw [hany '$' (by decide)]; simp),
    List.find?_cons_of_neg _ (by rw [hany '€' (by decide)]; simp),
    List.find?_cons_of_neg _ (by rw [hany '₹' (by decide)]; simp),
    List.find?_cons_of_neg _ (by rw [hany '£' (by decide)]; simp),
    List.find?_cons_of_neg _ (by rw [hany '¥' (by decide)]; simp),
    List.find?_nil]
  rfl

theorem pyUnsigned_digits_dot {a b : List Char} (ha : a ≠ []) (hb : b ≠ [])
    (hda : ∀ c ∈ a, isDigitChar c = true)
    (hdb : ∀ c ∈ b, isDigitChar c = true) :
    pyUnsigned (a ++ '.' :: b) =
      some ⟨(natOfDigits a : Int) * pow10 b.length + (natOfDigits b : Int),
            0 - (b.length : Int)⟩ := by
  have hDUa : ∀ c ∈ a, isDU c = true := fun c hc => by
    obtain ⟨-, -, -, -, -, -, -, -, hd, -⟩ := digit_facts c (hda c hc)
    exact hd
  have hDUb : ∀ c ∈ b, isDU c = true := fun c hc => by
    obtain ⟨-, -, -, -, -, -, -, -, hd, -⟩ := digit_facts c (hdb c hc)
    exact hd
  have e1 : (a ++ '.' :: b).takeWhile isDU = a := by
    rw [List.takeWhile_append_of_pos hDUa,
      List.takeWhile_cons_of_neg (by decide), List.append_nil]
  have e2 : (a ++ '.' :: b).dropWhile isDU = '.' :: b := by
    rw [List.dropWhile_append_of_pos hDUa,
      List.dropWhile_cons_of_neg (by decide)]
  have e3 : b.takeWhile isDU = b := takeWhile_all hDUb
  have e4 : b.dropWhile isDU = [] := dropWhile_all hDUb
  have e5 : digitsValN a = natOfDigits a := by
    unfold digitsValN
    rw [filter_no_underscore hda]
  have e6 : digitsValN b = natOfDigits b := by
    unfold digitsValN
    rw [filter_no_underscore hdb]
  have e7 : digitsLen b = b.length := by
    unfold digitsLen
    rw [filter_no_underscore hdb]
  simp only [pyUnsigned, e1, e2, e3, e4]
  rw [decide_eq_false ha, decide_eq_false hb,
    validRun_all_digits ha hda, validRun_all_digits hb hdb]
  simp only [Bool.false_and, Bool.false_or, Bool.and_self]
  rw [if_neg (by simp), if_pos trivial]
  simp only [pyExp, e5, e6, e7]

theorem pyFloat_digits_dot {a b : List Char} (ha : a ≠ []) (hb : b ≠ [])
    (hda : ∀ c ∈ a, isDigitChar c = true)
    (hdb : ∀ c ∈ b, isDigitChar c = true) :
    pyFloat? (a ++ '.' :: b) =
      some ⟨(natOfDigits a : Int) * pow10 b.length + (natOfDigits b : Int),
            0 - (b.length : Int)⟩ := by
  have hnws : ∀ c ∈ a ++ '.' :: b, isWsChar c = false := by
    intro c hc
    rcases List.mem_append.mp hc with h | h
    · obtain ⟨-, -, -, -, -, -, -, hw, -⟩ := digit_facts c (hda c h)
      exact hw
    · rcases List.mem_cons.mp h with rfl | h
      · decide
      · obtain ⟨-, -, -, -, -, -, -, hw, -⟩ := digit_facts c (hdb c h)
        exact hw
  have hmain := pyUnsigned_digits_dot ha hb hda hdb
  obtain ⟨c0, a', rfl⟩ := List.exists_cons_of_ne_nil ha
  have hc0 : isDigitChar c0 = true := hda c0 (List.mem_cons_self c0 a')
  unfold pyFloat?
  rw [trimWs_eq_self hnws]
  rcases digit_mem c0 hc0 with h' | h' | h' | h' | h' | h' | h' | h' | h' |
    h' <;> subst h' <;> exact hmain

/-- C8 (counterexample): on the plain decimal input `"1.2345"` (a `'.'`
followed by four digits) the `'.'` is *not* kept as the decimal point: the
European-format substitution collapses `1.234` to `1234` and the parsed
value is 12345, not the literal decimal 1.2345. -/
theorem C8_counterexample :
    (parse_amount (some "1.2345")).error = none ∧
    (parse_amount (some "1.2345")).format = some "standard" ∧
    ((parse_amount (some "1.2345")).parsed_value.map Dec.toRat) =
      some (12345 : ℚ) ∧
    (12345 : ℚ) ≠ 12345 / 10000 := by
  have hv : (parse_amount (some "1.2345")).parsed_value = some ⟨12345, 0⟩ := by
    decide
  refine ⟨by decide, by decide, ?_, by norm_num⟩
  rw [hv]
  show some (Dec.toRat ⟨12345, 0⟩) = some (12345 : ℚ)
  norm_num [Dec.toRat, Int.toNat]

/-- C8 (amended): the European-convention test of `normalize_currency` fires
when a `'.'` is followed by three *or more* digits (not "exactly three").
For every plain decimal input made of a nonempty digit string, a `'.'`, and
one or two digits — so that no digit-run-dot-three-digits window exists —
the `'.'` is kept as the decimal point: `parse_amount` succeeds on the
standard path with no currency, a positive sign, and exactly the literal
decimal value.  Inputs with three or more fraction digits are instead
reinterpreted by the grouping collapse (see `C8_counterexample`). -/
theorem C8_decimal_kept (a b : List Char) (ha : a ≠ []) (hb : b ≠ [])
    (hb2 : b.length ≤ 2)
    (hda : ∀ c ∈ a, isDigitChar c = true)
    (hdb : ∀ c ∈ b, isDigitChar c = true) :
    (parse_amount (some (String.mk (a ++ '.' :: b)))).format =
      some "standard" ∧
    (parse_amount (some (String.mk (a ++ '.' :: b)))).error = none ∧
    (parse_amount (some (String.mk (a ++ '.' :: b)))).currency = none ∧
    (parse_amount (some (String.mk (a ++ '.' :: b)))).is_negative = false ∧
    ((parse_amount (some (String.mk (a ++ '.' :: b)))).parsed_value.map
        Dec.toRat) =
      some ((natOfDigits a : ℚ) + (natOfDigits b : ℚ) / 10 ^ b.length) := by
  have hmem : ∀ c ∈ a ++ '.' :: b,
      isDigitChar c = true ∨ c = '.' := by
    intro c hc
    rcases List.mem_append.mp hc with h | h
    · exact Or.inl (hda c h)
    · rcases List.mem_cons.mp h with rfl | h
      · exact Or.inr rfl
      · exact Or.inl (hdb c h)
  have hnws : ∀ c ∈ a ++ '.' :: b, isWsChar c = false := by
    intro c hc
    rcases hmem c hc with h | rfl
    · obtain ⟨-, -, -, -, -, -, -, hw, -⟩ := digit_facts c h
      exact hw
    · decide
  have hnocomma : ∀ c ∈ a ++ '.' :: b, c ≠ ',' := by
    intro c hc
    rcases hmem c hc with h | rfl
    · obtain ⟨-, -, -, -, -, -, -, -, -, -, hcm, -⟩ := digit_facts c h
      exact hcm
    · decide
  have hnosym : ∀ c ∈ a ++ '.' :: b, isCurrencySym c = false := by
    intro c hc
    rcases hmem c hc with h | rfl
    · obtain ⟨-, -, -, -, -, -, -, -, -, hs, -⟩ := digit_facts c h
      exact hs
    · decide
  have hne : String.mk (a ++ '.' :: b) ≠ "" := by
    intro h0
    have h1 : a ++ '.' :: b = [] := by
      simpa using congrArg String.toList h0
    rw [List.append_eq_nil] at h1
    exact absurd h1.2 (by simp)
  have hstep : parse_amount (some (String.mk (a ++ '.' :: b))) =
      parse_amount_str (trimWs (a ++ '.' :: b)) := by
    show (if String.mk (a ++ '.' :: b) = "" then emptyAmount
      else parse_amount_str (trimWs (String.mk (a ++ '.' :: b)).toList)) = _
    rw [if_neg hne]
    rfl
  have htr : trimWs (a ++ '.' :: b) = a ++ '.' :: b := trimWs_eq_self hnws
  obtain ⟨bl, hbl⟩ :=
    Option.isSome_iff_exists.mp (List.getLast?_isSome.mpr hb)
  have hblmem : bl ∈ b := List.mem_of_mem_getLast? (by rw [hbl]; rfl)
  obtain ⟨hblK, hblM, hblB, hblT, hblRp, hblDash, -, -, -, -, -, -, -, -, -⟩ :=
    digit_facts bl (hdb bl hblmem)
  have hlast : (a ++ '.' :: b).getLast? = some bl := by
    rw [List.getLast?_append,
      show ('.' :: b) = ['.'] ++ b from rfl, List.getLast?_append, hbl]
    rfl
  obtain ⟨c0, a', rfl⟩ := List.exists_cons_of_ne_nil ha
  obtain ⟨-, -, -, -, -, -, hc0Lp, -, -, -, -, -, -, -, -⟩ :=
    digit_facts c0 (hda c0 (List.mem_cons_self c0 a'))
  have hhead : ((c0 :: a') ++ '.' :: b).head? = some c0 := rfl
  have hspec : is_special_format ((c0 :: a') ++ '.' :: b) = false := by
    unfold is_special_format upperEndsWith endsWithChar startsWithChar
    rw [hlast, hhead]
    simp [hblK, hblM, hblB, hblT, hblRp, hblDash, hc0Lp]
  have hnorm : normalize_currency ((c0 :: a') ++ '.' :: b) =
      (c0 :: a') ++ '.' :: b := by
    unfold normalize_currency
    rw [searchEuro_digits_dot hdb hb2 (c0 :: a') hda]
    rw [if_neg (by simp)]
    exact subThousand_no_comma _ hnocomma
  have hfilter : ((c0 :: a') ++ '.' :: b).filter (fun c => !isCurrencySym c) =
      (c0 :: a') ++ '.' :: b :=
    List.filter_eq_self.mpr (fun c hc => by rw [hnosym c hc]; rfl)
  have hfl := pyFloat_digits_dot ha hb hda hdb
  have hm_nonneg : (0 : Int) ≤
      (natOfDigits (c0 :: a') : Int) * pow10 b.length +
        (natOfDigits b : Int) := by
    have h1 := pow10_pos b.length
    have h2 : (0 : Int) ≤ (natOfDigits (c0 :: a') : Int) :=
      Int.natCast_nonneg _
    have h3 : (0 : Int) ≤ (natOfDigits b : Int) := Int.natCast_nonneg _
    nlinarith
  have hres : parse_amount (some (String.mk ((c0 :: a') ++ '.' :: b))) =
      mkStandardResult none
        ⟨(natOfDigits (c0 :: a') : Int) * pow10 b.length +
          (natOfDigits b : Int), 0 - (b.length : Int)⟩ := by
    rw [hstep, htr]
    unfold parse_amount_str
    rw [hspec]
    rw [if_neg (by simp)]
    rw [hnorm]
    simp only [parse_normalized_amount, currencyOf_none hnosym, hfilter, hfl]
  rw [hres]
  refine ⟨rfl, rfl, rfl, ?_, ?_⟩
  · show Dec.isNeg
      ⟨(natOfDigits (c0 :: a') : Int) * pow10 b.length +
          (natOfDigits b : Int), 0 - (b.length : Int)⟩ = false
    unfold Dec.isNeg
    simp only
    exact decide_eq_false (not_lt.mpr hm_nonneg)
  · show some (Dec.toRat
      ⟨|(natOfDigits (c0 :: a') : Int) * pow10 b.length +
          (natOfDigits b : Int)|, 0 - (b.length : Int)⟩) = _
    rw [abs_of_nonneg hm_nonneg]
    have hk1 : 1 ≤ b.length := List.length_pos.mpr hb
    have hexp : ¬(0 : Int) ≤ 0 - (b.length : Int) := by
      simp only [zero_sub, neg_nonneg, Int.not_le]
      exact_mod_cast hk1
    unfold Dec.toRat
    simp only
    rw [if_neg hexp]
    have htn : (-(0 - (b.length : Int))).toNat = b.length := by
      rw [neg_sub, sub_zero, Int.toNat_natCast]
    rw [htn]
    have h10 : ((10 : ℚ)) ^ b.length ≠ 0 := by positivity
    push_cast [pow10_cast]
    field_simp

/-- C8 (witness): `C8_decimal_kept` at the concrete two-fraction-digit input
`"1.25"`. -/
theorem C8_witness :
    (['1'] : List Char) ≠ [] ∧ (['2', '5'] : List Char) ≠ [] ∧
    (['2', '5'] : List Char).length ≤ 2 ∧
    (∀ c ∈ (['1'] : List Char), isDigitChar c = true) ∧
    (∀ c ∈ (['2', '5'] : List Char), isDigitChar c = true) ∧
    ((parse_amount (some (String.mk (['1'] ++ '.' :: ['2', '5'])))).format =
      some "standard" ∧
    (parse_amount (some (String.mk (['1'] ++ '.' :: ['2', '5'])))).error =
      none ∧
    (parse_amount (some (String.mk (['1'] ++ '.' :: ['2', '5'])))).currency =
      none ∧
    (parse_amount
      (some (String.mk (['1'] ++ '.' :: ['2', '5'])))).is_negative = false ∧
    ((parse_amount (some (String.mk
        (['1'] ++ '.' :: ['2', '5'])))).parsed_value.map Dec.toRat) =
      some ((natOfDigits ['1'] : ℚ) +
        (natOfDigits ['2', '5'] : ℚ) / 10 ^ (['2', '5'] : List Char).length)) :=
  ⟨by decide, by decide, by decide, by decide, by decide,
    C8_decimal_kept ['1'] ['2', '5'] (by decide) (by decide) (by decide)
      (by decide) (by decide)⟩
